import Mathlib

/-!
Open HR20: the main loop of `rfmsrc/main.c`
==============================================

A shallow embedding of `main()` (startup check, sleep decision, task dispatcher,
radio transmitter branch, once-per-second control tick) together with the
properties of the dispatcher, the radio frame and the sleep policy.

Conventions of the embedding

* 8-bit and 16-bit C variables are natural numbers; every store that can leave
  the range is reduced modulo `2^8`.
* Calls into other modules (LCD, motor, RTC, keyboard, menu, radio driver) are
  recorded, in program order, as a list of `Event`s.  Values that `main()` reads
  from other modules during one pass of the loop are the fields of `Inputs`.
* Interrupt handlers and driver modules act between passes of the loop
  (`Step.env`) and while the CPU sleeps (`Inputs.wake`).
-/

namespace OpenHR20

/-! ## Constants and types declared in headers outside `main.c` -/

/-- Constants that `main.c` takes from project headers (`task.h`, `eeprom.h`,
`config.h`, `rfm.h`, `controller.h`, `lcd.h`).  Their values are not fixed by
`main.c`, so they are parameters of the embedding. -/
structure Consts where
  TASK_LCD : Nat
  TASK_ADC : Nat
  TASK_COM : Nat
  TASK_MOTOR_STOP : Nat
  TASK_MOTOR_PULSE : Nat
  TASK_KB : Nat
  TASK_RFM : Nat
  TASK_RTC : Nat
  EE_LAYOUT : Nat
  RFM_CONFIG_BROADCASTSTATUS : Nat
  CTL_ERR_NA_0 : Nat
  CTL_ERR_NA_1 : Nat
  RFMPROTO_FLAGS_PACKETTYPE_BROADCAST : Nat
  RFMPROTO_FLAGS_DEVICETYPE_OPENHR20 : Nat
  LCD_STRING_EEPr : Nat
  LCD_MODE_ON : Nat
  deriving DecidableEq, Repr

/-- The eight task masks in dispatch order. -/
def Consts.taskMasks (k : Consts) : List Nat :=
  [k.TASK_LCD, k.TASK_ADC, k.TASK_COM, k.TASK_MOTOR_STOP, k.TASK_MOTOR_PULSE,
   k.TASK_KB, k.TASK_RFM, k.TASK_RTC]

/-- Modelled from the spec: the task masks of `task.h` (missing from the sources)
are "mutually-independent boolean flags" of one byte-wide register: every mask is
a non-zero byte and no two masks share a bit. -/
def Consts.WF (k : Consts) : Prop :=
  (∀ m ∈ k.taskMasks, 0 < m ∧ m < 256) ∧
  k.taskMasks.Pairwise (fun a b => a &&& b = 0)

instance (k : Consts) : Decidable k.WF := by
  unfold Consts.WF
  infer_instance

/-- Modelled from the spec: the radio mode enumeration of `rfm.h` (missing from
the sources), "one of idle, transmitting, receiving"; `rfmmode_off` is idle. -/
inductive RfmMode
  | rfmmode_off
  | rfmmode_txd
  | rfmmode_rxd
  deriving DecidableEq, Repr

/-- Calls into other modules and CPU instructions issued by `main()`, with the
arguments passed.  `rfm_framebuf_read i` records that the transmitter read
`rfm_framebuf[i]`; `sleep smcr` records the value of `SMCR` at the `sleep`
instruction. -/
inductive Event
  | cli
  | sei
  | sleep (smcr : Nat)
  | nop
  | ADCSRA_set_ADSC
  | DEBUG_BEFORE_SLEEP
  | DEBUG_AFTER_SLEEP
  | task_lcd_update
  | task_ADC
  | COM_commad_parse
  | MOTOR_timer_stop
  | MOTOR_updateCalibration (cal : Nat)
  | MOTOR_timer_pulse
  | task_keyboard
  | rfm_framebuf_read (index : Nat)
  | RFM_WRITE (value : Nat)
  | RFM_SPI_SELECT
  | RFM_OFF
  | RFM_TX_ON
  | RTC_AddOneSecond
  | CTL_update (minute : Bool) (valve : Nat)
  | MOTOR_Goto (valve : Nat)
  | task_keyboard_long_press_detect
  | start_task_ADC
  | menu_controller (new_state : Bool)
  | menu_view (update : Bool)
  | LCD_Update
  | power_down_ADC
  | RTC_Init
  | eeprom_config_init
  | RFM_init
  | MOTOR_Init
  | LCD_Init
  | EEPROM_read
  | LCD_PrintStringID (id mode : Nat)
  | COM_init
  deriving DecidableEq, Repr

/-- Variables written by `main()`.  `task` is the byte-wide pending-work
register; `rfm_framebuf`, `rfm_framesize`, `rfm_framepos`, `rfm_mode` are the
radio frame and its transmitter state, with `rfm_framesize` and `rfm_framepos`
byte-wide. -/
structure State where
  task : Nat
  /-- Modelled from the spec: the type of `sleep_with_ADC` (declared in `adc.h`,
  missing from the sources) is boolean, a one-shot "armed" flag. -/
  sleep_with_ADC : Bool
  SMCR : Nat
  valve_wanted : Nat
  menu_auto_update_timeout : Int
  rfm_framebuf : List Nat
  rfm_framesize : Nat
  rfm_framepos : Nat
  rfm_mode : RfmMode
  deriving DecidableEq, Repr

/-- Values read from other modules during one pass of the main loop. -/
structure Inputs where
  wake : Nat
  timer0_need_clock : Bool
  RS_need_clock : Bool
  mont_contact_pooling : Nat
  RTC_AddOneSecond : Bool
  CTL_update : Nat
  RTC_GetDayOfWeek : Nat
  RTC_GetHour : Nat
  RTC_GetMinute : Nat
  RTC_GetSecond : Nat
  RFM_config : Nat
  RFM_devaddr : Nat
  CTL_error : Nat
  CTL_mode_auto : Bool
  mode_window : Bool
  temp_average : Nat
  CTL_temp_wanted : Nat
  MOTOR_GetPosPercent : Nat
  kb_events : Nat
  menu_controller : Bool
  deriving DecidableEq, Repr

/-! ## Arithmetic helpers -/

/-- Byte-wide `x & ~m`, as in `task &= ~TASK_LCD`. -/
def andNot8 (x m : Nat) : Nat := x &&& (0xFF ^^^ (m % 256))

/-- Byte-wide `x | m`, as in `task |= TASK_RFM`. -/
def or8 (x m : Nat) : Nat := (x ||| m) % 256

/-- Modelled from the spec: `HIBYTE` (missing from the sources), the high byte of
a 16-bit value ("16-bit, high byte first"). -/
def HIBYTE (x : Nat) : Nat := (x >>> 8) % 256

/-- Modelled from the spec: `LOBYTE` (missing from the sources), the low byte of
a 16-bit value. -/
def LOBYTE (x : Nat) : Nat := x % 256

/-- Bit positions of `SMCR` on the ATmega169 (`avr/io.h`). -/
def SE : Nat := 0

/-- Sleep mode select bit 0 of `SMCR`. -/
def SM0 : Nat := 1

/-- Sleep mode select bit 1 of `SMCR`. -/
def SM1 : Nat := 2

/-- One bit of the avr-libc `_crc_ibutton_update` loop body:
`if (crc & 0x01) crc = (crc >> 1) ^ 0x8C; else crc >>= 1;`. -/
def crc_ibutton_shift (crc : Nat) : Nat :=
  if crc &&& 0x01 ≠ 0 then (crc >>> 1) ^^^ 0x8C else crc >>> 1

/-- The avr-libc routine `_crc_ibutton_update` of `util/crc16.h`, as given by its
documented C equivalent: `crc = crc ^ data;` followed by eight shift steps. -/
def _crc_ibutton_update (crc data : Nat) : Nat :=
  crc_ibutton_shift^[8] (crc ^^^ data)

/-! ## The main loop -/

/-- Lines 124-152: the sleep decision at the top of the loop. -/
def sleep_phase (inp : Inputs) (s : State) : State × List Event :=
  if s.task = 0 then
    let smcr :=
      if inp.timer0_need_clock || inp.RS_need_clock then
        (0 <<< SM1) ||| (0 <<< SM0) ||| (1 <<< SE)
      else if s.sleep_with_ADC then
        (0 <<< SM1) ||| (1 <<< SM0) ||| (1 <<< SE)
      else
        (1 <<< SM1) ||| (1 <<< SM0) ||| (1 <<< SE)
    let arm : List Event := if s.sleep_with_ADC = true then [Event.ADCSRA_set_ADSC] else []
    ({ s with
        SMCR := (1 <<< SM1) ||| (1 <<< SM0) ||| (0 <<< SE)
        sleep_with_ADC := if s.sleep_with_ADC = true then false else s.sleep_with_ADC
        task := or8 s.task inp.wake },
      [Event.cli] ++ arm ++
        [Event.DEBUG_BEFORE_SLEEP, Event.sei, Event.sleep smcr, Event.nop,
         Event.DEBUG_AFTER_SLEEP])
  else
    (s, [Event.cli, Event.sei])

/-- Lines 192-196: the keyboard branch. -/
def kb_branch (k : Consts) (s : State) : State × List Event :=
  if s.task &&& k.TASK_KB ≠ 0 then
    ({ s with task := andNot8 s.task k.TASK_KB }, [Event.task_keyboard])
  else
    (s, [])

/-- Lines 205-210: shift out the byte under the cursor. -/
def rfm_shift_out (s : State) : State × List Event :=
  if s.rfm_framepos < s.rfm_framesize then
    ({ s with rfm_framepos := (s.rfm_framepos + 1) % 256 },
      [Event.rfm_framebuf_read s.rfm_framepos,
       Event.RFM_WRITE (s.rfm_framebuf.getD s.rfm_framepos 0),
       Event.RFM_SPI_SELECT])
  else
    (s, [])

/-- Lines 199-236: the radio branch. -/
def rfm_branch (k : Consts) (s : State) : State × List Event :=
  if s.task &&& k.TASK_RFM ≠ 0 then
    match s.rfm_mode with
    | RfmMode.rfmmode_txd =>
      let w := rfm_shift_out s
      if w.1.rfm_framepos = w.1.rfm_framesize then
        ({ w.1 with
            task := andNot8 w.1.task k.TASK_RFM
            rfm_framepos := 0
            rfm_framesize := 0
            rfm_mode := RfmMode.rfmmode_off },
          w.2 ++ [Event.RFM_OFF, Event.RFM_WRITE 0])
      else
        w
    | RfmMode.rfmmode_rxd => (s, [])
    | RfmMode.rfmmode_off => (s, [])
  else
    (s, [])

/-- Line 253: the condition guarding the broadcast,
`(config.RFM_config && RFM_CONFIG_BROADCASTSTATUS) && (RTC_GetSecond() % 4)`. -/
def broadcast_gate (k : Consts) (inp : Inputs) : Bool :=
  (inp.RFM_config != 0 && k.RFM_CONFIG_BROADCASTSTATUS != 0) && (inp.RTC_GetSecond % 4 != 0)

/-- Lines 255-257: the status byte of the broadcast. -/
def statusbits (k : Consts) (inp : Inputs) : Nat :=
  let sb := inp.CTL_error % 256
  let sb := if !inp.CTL_mode_auto then (sb ||| k.CTL_ERR_NA_0) % 256 else sb
  if inp.mode_window then (sb ||| k.CTL_ERR_NA_1) % 256 else sb

/-- Lines 272-276: the checksum loop `for (i=4; i<12; i++)`. -/
def frame_crc (buf : List Nat) : Nat :=
  (List.range' 4 8).foldl (fun crc i => _crc_ibutton_update crc (buf.getD i 0)) 0x00

/-- Lines 259-279: the stores into `rfm_framebuf`. -/
def assemble_frame (k : Consts) (inp : Inputs) (buf : List Nat) : List Nat :=
  let buf := buf.set 0 0xaa
  let buf := buf.set 1 0xaa
  let buf := buf.set 2 0x2d
  let buf := buf.set 3 0xd4
  let buf := buf.set 4 9
  let buf := buf.set 5
    ((k.RFMPROTO_FLAGS_PACKETTYPE_BROADCAST ||| k.RFMPROTO_FLAGS_DEVICETYPE_OPENHR20) % 256)
  let buf := buf.set 6 (inp.RFM_devaddr % 256)
  let buf := buf.set 7 (HIBYTE inp.temp_average)
  let buf := buf.set 8 (LOBYTE inp.temp_average)
  let buf := buf.set 9 (inp.CTL_temp_wanted % 256)
  let buf := buf.set 10 (inp.MOTOR_GetPosPercent % 256)
  let buf := buf.set 11 (statusbits k inp)
  let buf := buf.set 12 (frame_crc buf)
  buf.set 13 0xaa

/-- Lines 251-292: the broadcast part of the control tick. -/
def rfm_broadcast (k : Consts) (inp : Inputs) (s : State) : State × List Event :=
  if broadcast_gate k inp then
    ({ s with
        rfm_framebuf := assemble_frame k inp s.rfm_framebuf
        rfm_framesize := 14
        rfm_framepos := 0
        task := or8 s.task k.TASK_RFM
        rfm_mode := RfmMode.rfmmode_txd },
      [Event.RFM_TX_ON, Event.RFM_SPI_SELECT])
  else
    (s, [])

/-- Lines 244-249: the weekly forced recalibration. -/
def weekly_recalibration (inp : Inputs) : List Event :=
  if inp.RTC_AddOneSecond && inp.RTC_GetDayOfWeek == 6 && inp.RTC_GetHour == 10
      && inp.RTC_GetMinute == 0 then
    [Event.MOTOR_updateCalibration 0]
  else
    []

/-- Lines 239-304: the control tick. -/
def rtc_branch (k : Consts) (inp : Inputs) (s : State) : State × List Event :=
  if s.task &&& k.TASK_RTC ≠ 0 then
    let s1 := { s with task := andNot8 s.task k.TASK_RTC }
    let s2 := { s1 with valve_wanted := inp.CTL_update % 256 }
    let b := rfm_broadcast k inp s2
    ({ b.1 with
        menu_auto_update_timeout :=
          if b.1.menu_auto_update_timeout > 0 then b.1.menu_auto_update_timeout - 1
          else b.1.menu_auto_update_timeout },
      [Event.RTC_AddOneSecond, Event.CTL_update inp.RTC_AddOneSecond s.valve_wanted] ++
        weekly_recalibration inp ++ b.2 ++
        [Event.MOTOR_updateCalibration inp.mont_contact_pooling,
         Event.MOTOR_Goto s2.valve_wanted,
         Event.task_keyboard_long_press_detect,
         Event.start_task_ADC,
         Event.menu_view false,
         Event.LCD_Update])
  else
    (s, [])

/-- Lines 306-314: the menu state machine. -/
def menu_branch (inp : Inputs) (s : State) : State × List Event :=
  if inp.kb_events ≠ 0 ∨ s.menu_auto_update_timeout = 0 then
    (s, [Event.menu_controller false] ++
        (if inp.menu_controller then [Event.menu_controller true] else []) ++
        [Event.menu_view inp.menu_controller, Event.LCD_Update])
  else
    (s, [])

/-- Lines 192-314: the part of the loop body behind the five `continue` branches. -/
def late_branches (k : Consts) (inp : Inputs) (s : State) : State × List Event :=
  let r1 := kb_branch k s
  let r2 := rfm_branch k r1.1
  let r3 := rtc_branch k inp r2.1
  let r4 := menu_branch inp r3.1
  (r4.1, r1.2 ++ r2.2 ++ r3.2 ++ r4.2)

/-- Lines 154-314: the task dispatcher. -/
def dispatch (k : Consts) (inp : Inputs) (s : State) : State × List Event :=
  if s.task &&& k.TASK_LCD ≠ 0 then
    ({ s with task := andNot8 s.task k.TASK_LCD }, [Event.task_lcd_update])
  else if s.task &&& k.TASK_ADC ≠ 0 then
    ({ s with task := andNot8 s.task k.TASK_ADC }, [Event.task_ADC])
  else if s.task &&& k.TASK_COM ≠ 0 then
    ({ s with task := andNot8 s.task k.TASK_COM }, [Event.COM_commad_parse])
  else if s.task &&& k.TASK_MOTOR_STOP ≠ 0 then
    ({ s with task := andNot8 s.task k.TASK_MOTOR_STOP }, [Event.MOTOR_timer_stop])
  else if s.task &&& k.TASK_MOTOR_PULSE ≠ 0 then
    ({ s with task := andNot8 s.task k.TASK_MOTOR_PULSE },
      [Event.MOTOR_updateCalibration inp.mont_contact_pooling, Event.MOTOR_timer_pulse])
  else
    late_branches k inp s

/-- Lines 123-315: one pass of the main loop `for (;;)`. -/
def main_iteration (k : Consts) (inp : Inputs) (s : State) : State × List Event :=
  let r0 := sleep_phase inp s
  let r1 := dispatch k inp r0.1
  (r1.1, r0.2 ++ r1.2)

/-! ## Runs of the program -/

/-- What happens between two tests of the program: either interrupt handlers and
driver modules act (raise task flags, arm the ADC sleep, set the menu timeout), or
the CPU executes one pass of the loop it is in. -/
inductive Step
  | env (flags : Nat) (adc : Bool) (timeout : Int)
  | cycle (inp : Inputs)
  deriving DecidableEq, Repr

/-- Effect of interrupt handlers and drivers on the variables they share with
`main()`. -/
def env_step (flags : Nat) (adc : Bool) (timeout : Int) (s : State) : State :=
  { s with task := or8 s.task flags, sleep_with_ADC := adc, menu_auto_update_timeout := timeout }

/-- One step of the main loop. -/
def step (k : Consts) (st : Step) (s : State) : State × List Event :=
  match st with
  | Step.env flags adc timeout => (env_step flags adc timeout s, [])
  | Step.cycle inp => main_iteration k inp s

/-- A finite run of the main loop, with the events it issues. -/
def exec (k : Consts) : List Step → State → State × List Event
  | [], s => (s, [])
  | st :: rest, s =>
    let r := step k st s
    let r2 := exec k rest r.1
    (r2.1, r.2 ++ r2.2)

/-- Program location of `main()`: the fatal-error loop `for(;;) {;}` of line 110
or the main loop of line 123. -/
inductive Pc
  | halted
  | main_loop
  deriving DecidableEq, Repr

/-- Lines 325-385: the calls made by `init()` (port set-up omitted). -/
def init : List Event :=
  [Event.power_down_ADC, Event.RTC_Init, Event.eeprom_config_init, Event.RFM_init,
   Event.MOTOR_Init, Event.LCD_Init, Event.task_keyboard]

/-- Lines 96-113: start-up of `main()` up to the loop it ends in; `ee_layout` is
the value returned by `EEPROM_read`. -/
def main_startup (k : Consts) (ee_layout : Nat) (s : State) : Pc × State × List Event :=
  let s1 := { s with task := 0 }
  if ee_layout ≠ k.EE_LAYOUT then
    (Pc.halted, s1,
      init ++ [Event.sei, Event.EEPROM_read,
        Event.LCD_PrintStringID k.LCD_STRING_EEPr k.LCD_MODE_ON, Event.task_lcd_update])
  else
    (Pc.main_loop, s1, init ++ [Event.sei, Event.EEPROM_read, Event.COM_init])

/-- A finite run of the loop the program is in: the fatal-error loop has an empty
body, so only interrupt handlers act there. -/
def run_loop (k : Consts) : Pc → List Step → State → State × List Event
  | Pc.main_loop, steps, s => exec k steps s
  | Pc.halted, [], s => (s, [])
  | Pc.halted, Step.env flags adc timeout :: rest, s =>
    run_loop k Pc.halted rest (env_step flags adc timeout s)
  | Pc.halted, Step.cycle _ :: rest, s => run_loop k Pc.halted rest s

/-- The program `main()` run for a finite number of steps. -/
def main (k : Consts) (ee_layout : Nat) (steps : List Step) (s : State) :
    Pc × State × List Event :=
  let b := main_startup k ee_layout s
  let r := run_loop k b.1 steps b.2.1
  (b.1, r.1, b.2.2 ++ r.2)

/-! ## An instantiation of the header constants, used for concrete evaluations -/

/-- One admissible choice of the header constants. -/
def hr20 : Consts :=
  { TASK_KB := 1, TASK_RTC := 2, TASK_ADC := 4, TASK_LCD := 8,
    TASK_MOTOR_PULSE := 16, TASK_MOTOR_STOP := 32, TASK_COM := 64, TASK_RFM := 128,
    EE_LAYOUT := 8, RFM_CONFIG_BROADCASTSTATUS := 1,
    CTL_ERR_NA_0 := 1, CTL_ERR_NA_1 := 2,
    RFMPROTO_FLAGS_PACKETTYPE_BROADCAST := 128, RFMPROTO_FLAGS_DEVICETYPE_OPENHR20 := 32,
    LCD_STRING_EEPr := 0, LCD_MODE_ON := 3 }

/-- Idle state: empty task register, radio off, a 14-byte zeroed frame buffer. -/
def idle_state : State :=
  { task := 0, sleep_with_ADC := false, SMCR := 0, valve_wanted := 0,
    menu_auto_update_timeout := 10, rfm_framebuf := List.replicate 14 0,
    rfm_framesize := 0, rfm_framepos := 0, rfm_mode := RfmMode.rfmmode_off }

/-- Inputs of a quiet pass: nothing pending, automatic mode, broadcasting
enabled, time 00:00:00 on day 0. -/
def quiet_inputs : Inputs :=
  { wake := 0, timer0_need_clock := false, RS_need_clock := false,
    mont_contact_pooling := 0, RTC_AddOneSecond := false, CTL_update := 0,
    RTC_GetDayOfWeek := 0, RTC_GetHour := 0, RTC_GetMinute := 0, RTC_GetSecond := 0,
    RFM_config := 1, RFM_devaddr := 7, CTL_error := 0, CTL_mode_auto := true,
    mode_window := false, temp_average := 215, CTL_temp_wanted := 21,
    MOTOR_GetPosPercent := 42, kb_events := 0, menu_controller := false }

/-! ## Observations on event lists and specification-side definitions -/

/-- The `SMCR` values with which the `sleep` instruction was executed. -/
def sleep_events (evs : List Event) : List Nat :=
  evs.filterMap (fun e => match e with
    | Event.sleep smcr => some smcr
    | _ => none)

/-- The values passed to `RFM_WRITE`, in program order. -/
def rfm_writes (evs : List Event) : List Nat :=
  evs.filterMap (fun e => match e with
    | Event.RFM_WRITE v => some v
    | _ => none)

/-- The arguments of the calls of `MOTOR_updateCalibration`, in program order. -/
def calibration_calls (evs : List Event) : List Nat :=
  evs.filterMap (fun e => match e with
    | Event.MOTOR_updateCalibration cal => some cal
    | _ => none)

/-- Events that address the radio module. -/
def is_radio_event : Event → Bool
  | Event.RFM_WRITE _ => true
  | Event.RFM_SPI_SELECT => true
  | Event.RFM_OFF => true
  | Event.RFM_TX_ON => true
  | Event.rfm_framebuf_read _ => true
  | _ => false

/-- The three sleep depths of the sleep policy. -/
inductive SleepDepth
  | idle
  | adc_noise_reduction
  | power_save
  deriving DecidableEq, Repr

/-- Encoding of a sleep depth in `SMCR` with the sleep-enable bit set (ATmega169
data sheet: `SM1:0 = 00` idle, `01` ADC noise reduction, `11` power-save; `SE` is
bit 0). -/
def SleepDepth.smcr : SleepDepth → Nat
  | SleepDepth.idle => 1
  | SleepDepth.adc_noise_reduction => 3
  | SleepDepth.power_save => 7

/-- The decision table of the sleep policy as the specification words it: no
sleep unless the register is empty; then the shallowest depth if a clock is
needed, else ADC noise reduction if a conversion is armed, else power-save. -/
def sleep_policy (register_empty clock_needed adc_armed : Bool) : Option SleepDepth :=
  if !register_empty then none
  else if clock_needed then some SleepDepth.idle
  else if adc_armed then some SleepDepth.adc_noise_reduction
  else some SleepDepth.power_save

/-- Bit `i` of `after` is bit `i` of `before` unless `mask` has it, in which case
it is clear. -/
def ClearedOnly (before mask after : Nat) : Prop :=
  ∀ i, after.testBit i = (before.testBit i && !mask.testBit i)

/-- The flags raised by the environment steps of a run, accumulated on `t`. -/
def raised_flags : List Step → Nat → Nat
  | [], t => t
  | Step.env flags _ _ :: rest, t => raised_flags rest (or8 t flags)
  | Step.cycle _ :: rest, t => raised_flags rest t

/-- One input bit of the Dallas/Maxim one-wire CRC-8: the low bit of the register
is compared with the input bit, the register is shifted right, and the polynomial
`0x8C` is folded in when the two bits differ. -/
def crc8_dallas_bit (crc : Nat) (bit : Bool) : Nat :=
  if (crc % 2 == 1) != bit then (crc / 2) ^^^ 0x8C else crc / 2

/-- The bits of a byte, least significant first. -/
def bits_lsb_first (byte : Nat) : List Bool :=
  (List.range 8).map (fun i => byte.testBit i)

/-- The Dallas/iButton CRC-8 of a byte string, initial value 0, written from the
one-wire definition (independently of `_crc_ibutton_update`). -/
def crc8_dallas (bytes : List Nat) : Nat :=
  bytes.foldl (fun crc byte => (bits_lsb_first byte).foldl crc8_dallas_bit crc) 0

/-- The status byte as the frame layout describes it: the error byte, with
`CTL_ERR_NA_0` when not in automatic mode and `CTL_ERR_NA_1` when a window-open
condition is detected. -/
def status_byte (k : Consts) (e : Nat) (auto window : Bool) : Nat :=
  (e ||| (if auto then 0 else k.CTL_ERR_NA_0)) ||| (if window then k.CTL_ERR_NA_1 else 0)

/-- One pass of the loop handled exactly the flag `mask`: the pass consists of the
wake-up check and the events `evs` of that flag, the state changes only in the
task register, where exactly the bits of `mask` are cleared, and every other task
mask tests as before. -/
def HandledOnly (k : Consts) (inp : Inputs) (s : State) (mask : Nat) (evs : List Event) : Prop :=
  main_iteration k inp s =
      ({ s with task := andNot8 s.task mask }, Event.cli :: Event.sei :: evs)
    ∧ ClearedOnly s.task mask (main_iteration k inp s).1.task
    ∧ ∀ m ∈ k.taskMasks, m ≠ mask → (main_iteration k inp s).1.task &&& m = s.task &&& m

/-- The events of `main()` before it enters one of its two loops when the layout
check fails. -/
def halt_events (k : Consts) : List Event :=
  init ++ [Event.sei, Event.EEPROM_read,
    Event.LCD_PrintStringID k.LCD_STRING_EEPr k.LCD_MODE_ON, Event.task_lcd_update]

/-- The radio frame and transmitter state: buffer, length, cursor and mode. -/
def State.radio (s : State) : List Nat × Nat × Nat × RfmMode :=
  (s.rfm_framebuf, s.rfm_framesize, s.rfm_framepos, s.rfm_mode)

/-- The events a restarting branch of the dispatcher can consist of. -/
def restart_events (inp : Inputs) : List (List Event) :=
  [[Event.task_lcd_update], [Event.task_ADC], [Event.COM_commad_parse],
   [Event.MOTOR_timer_stop],
   [Event.MOTOR_updateCalibration inp.mont_contact_pooling, Event.MOTOR_timer_pulse]]

/-- The broadcast frame as the wire format describes it: preamble, sync pattern,
length 9, flags, sender address, temperature high byte first, set-point, valve
position, status byte, CRC-8 over offsets 4 to 11, postamble. -/
def broadcast_frame (flags a t w v sb : Nat) : List Nat :=
  [0xAA, 0xAA, 0x2D, 0xD4, 9, flags, a, t >>> 8, t &&& 0xFF, w, v, sb,
   crc8_dallas [9, flags, a, t >>> 8, t &&& 0xFF, w, v, sb], 0xAA]

/-- A state with only the clock tick pending. -/
def tick_pending : State := { idle_state with task := hr20.TASK_RTC }

/-- Bounds of the radio frame: the length is at most 14 and the cursor is at most
the length. -/
def FrameInv (s : State) : Prop :=
  s.rfm_framesize ≤ 14 ∧ s.rfm_framepos ≤ s.rfm_framesize

/-- What one pass of the radio branch can do to the radio state `r` (buffer,
length, cursor, mode): nothing, advance the cursor of a transmission, or complete
a transmission. -/
def RadioStep (r r' : List Nat × Nat × Nat × RfmMode) : Prop :=
  r' = r
    ∨ (r.2.2.2 = RfmMode.rfmmode_txd ∧ r.2.2.1 < r.2.1 ∧ (r.2.2.1 + 1) % 256 ≠ r.2.1
        ∧ r' = (r.1, r.2.1, (r.2.2.1 + 1) % 256, RfmMode.rfmmode_txd))
    ∨ (r.2.2.2 = RfmMode.rfmmode_txd
        ∧ ((r.2.2.1 < r.2.1 ∧ (r.2.2.1 + 1) % 256 = r.2.1) ∨ r.2.2.1 = r.2.1)
        ∧ r' = (r.1, 0, 0, RfmMode.rfmmode_off))

/-- The masks of the five restarting branches, in dispatch order. -/
def Consts.restartMasks (k : Consts) : List Nat :=
  [k.TASK_LCD, k.TASK_ADC, k.TASK_COM, k.TASK_MOTOR_STOP, k.TASK_MOTOR_PULSE]

/-- A transmission is under way and nothing but the radio (and possibly the
keyboard) is pending: mode transmitting, `TASK_RFM` set, the five restarting flags
and the clock tick clear. -/
def TxReady (k : Consts) (s : State) : Prop :=
  s.rfm_mode = RfmMode.rfmmode_txd ∧ s.task &&& k.TASK_RFM ≠ 0
    ∧ (∀ m ∈ k.restartMasks, s.task &&& m = 0) ∧ s.task &&& k.TASK_RTC = 0

instance (k : Consts) (s : State) : Decidable (TxReady k s) := by
  unfold TxReady
  infer_instance

/-- A run of consecutive passes of the main loop with no environment step in
between. -/
def cycles (inps : List Inputs) : List Step := inps.map Step.cycle

/-- A two-byte frame queued for transmission, radio flag pending. -/
def two_byte_tx : State :=
  { idle_state with
    task := hr20.TASK_RFM, rfm_framebuf := [17, 34, 51, 68, 0, 0, 0, 0, 0, 0, 0, 0, 0, 0],
    rfm_framesize := 2, rfm_framepos := 0, rfm_mode := RfmMode.rfmmode_txd }

/-- Inputs of a tick at second 1 (not a multiple of four), broadcasting enabled. -/
def second_one : Inputs := { quiet_inputs with RTC_GetSecond := 1 }

/-- Inputs of a tick at second 4 (a multiple of four), broadcasting enabled. -/
def second_four : Inputs := { quiet_inputs with RTC_GetSecond := 4 }

/-- Inputs of a tick at second 1 with only bit 1 of `config.RFM_config` set, so
that the broadcast-status bit (bit 0 in `hr20`) is clear. -/
def second_one_other_bit : Inputs := { quiet_inputs with RTC_GetSecond := 1, RFM_config := 2 }

/-- Inputs of a tick at second 2 with a changed temperature. -/
def second_two_warmer : Inputs := { quiet_inputs with RTC_GetSecond := 2, temp_average := 216 }

/-- Inputs of the tick on day 6 at 10:00:00, a minute boundary. -/
def weekly_instant : Inputs :=
  { quiet_inputs with
    RTC_AddOneSecond := true, RTC_GetDayOfWeek := 6, RTC_GetHour := 10, RTC_GetMinute := 0,
    mont_contact_pooling := 5 }

/-- A run that starts a broadcast and sends its first byte, after which the next
clock tick is raised. -/
def start_and_send_one : List Step :=
  [Step.env hr20.TASK_RTC false 10, Step.cycle second_one, Step.cycle quiet_inputs,
   Step.env hr20.TASK_RTC false 10]

/-- The state in the middle of a transmission reached by `start_and_send_one`. -/
def mid_transmission : State := (exec hr20 start_and_send_one idle_state).1

/-- The radio flag and the clock tick pending while the radio is off. -/
def rfm_and_tick_pending : State :=
  { idle_state with task := hr20.TASK_RFM ||| hr20.TASK_RTC }

/-- The radio flag pending while the radio is off. -/
def rfm_pending_idle : State := { idle_state with task := hr20.TASK_RFM }

/-- Motor pulse, keyboard, radio and clock tick pending together. -/
def pulse_and_others_pending : State :=
  { idle_state with
    task := hr20.TASK_MOTOR_PULSE ||| hr20.TASK_KB ||| hr20.TASK_RFM ||| hr20.TASK_RTC }

/-- The radio events of an event list, in program order. -/
def radio_events (evs : List Event) : List Event := evs.filter is_radio_event

/-- The events of shifting out the byte at index `i` (lines 207-209). -/
def tx_block (buf : List Nat) (i : Nat) : List Event :=
  [Event.rfm_framebuf_read i, Event.RFM_WRITE (buf.getD i 0), Event.RFM_SPI_SELECT]

/-- The events of shifting out the `n` bytes at indices `start`, ..., `start + n - 1`,
one after the other. -/
def tx_events (buf : List Nat) : Nat → Nat → List Event
  | _, 0 => []
  | start, n + 1 => tx_block buf start ++ tx_events buf (start + 1) n

/-- Whether the pass that starts in `s` gets past the five restarting branches,
that is, whether none of their flags is pending after the sleep decision. -/
def reaches_late_branches (k : Consts) (inp : Inputs) (s : State) : Bool :=
  k.restartMasks.all (fun m => (sleep_phase inp s).1.task &&& m == 0)

/-- The number of passes of a run that get past the five restarting branches. -/
def radio_passes (k : Consts) : List Step → State → Nat
  | [], _ => 0
  | Step.env flags adc timeout :: rest, s =>
    radio_passes k rest (env_step flags adc timeout s)
  | Step.cycle inp :: rest, s =>
    (if reaches_late_branches k inp s then 1 else 0)
      + radio_passes k rest (main_iteration k inp s).1

/-- A run during the transmission of `two_byte_tx`: a pass that sends the first
byte, an LCD flag raised by an interrupt, the pass that handles it, and the pass
that sends the second byte. -/
def send_two_with_lcd : List Step :=
  [Step.cycle quiet_inputs, Step.env hr20.TASK_LCD false 10, Step.cycle quiet_inputs,
   Step.cycle quiet_inputs]

/-! ## Bit-level facts about the task register -/

theorem land_eq_zero_iff (a b : Nat) :
    a &&& b = 0 ↔ ∀ i, a.testBit i = true → b.testBit i = false := by
  constructor
  · intro h i hi
    have h1 := congrArg (fun n => Nat.testBit n i) h
    simpa [Nat.testBit_and, hi] using h1
  · intro h
    apply Nat.eq_of_testBit_eq
    intro i
    rw [Nat.testBit_and, Nat.zero_testBit]
    cases ha : a.testBit i
    · simp
    · simp [h i ha]

theorem testBit_lt_256 {m i : Nat} (hm : m < 256) (h : m.testBit i = true) : i < 8 := by
  by_contra hi
  have : m.testBit i = false := by
    apply Nat.testBit_lt_two_pow
    calc m < 2 ^ 8 := by simpa using hm
      _ ≤ 2 ^ i := Nat.pow_le_pow_right (by norm_num) (by omega)
  rw [this] at h
  exact Bool.noConfusion h

theorem testBit_andNot8 (x m i : Nat) :
    (andNot8 x m).testBit i = (x.testBit i && (decide (i < 8) && !m.testBit i)) := by
  have h255 : Nat.testBit 255 i = decide (i < 8) := by
    simpa using Nat.testBit_two_pow_sub_one 8 i
  have hm : Nat.testBit (m % 256) i = (decide (i < 8) && m.testBit i) := by
    simpa using Nat.testBit_mod_two_pow m 8 i
  simp only [andNot8, Nat.testBit_and, Nat.testBit_xor, h255, hm]
  by_cases hi : i < 8 <;> simp [hi]

theorem testBit_or8 (x m i : Nat) :
    (or8 x m).testBit i = (decide (i < 8) && (x.testBit i || m.testBit i)) := by
  have := Nat.testBit_mod_two_pow (x ||| m) 8 i
  simpa [or8, Nat.testBit_or] using this

/-- Clearing one mask leaves a disjoint byte mask as it was. -/
theorem andNot8_and_of_disjoint {x a b : Nat} (hb : b < 256) (h : a &&& b = 0) :
    andNot8 x a &&& b = x &&& b := by
  rw [land_eq_zero_iff] at h
  apply Nat.eq_of_testBit_eq
  intro i
  rw [Nat.testBit_and, Nat.testBit_and, testBit_andNot8]
  cases hB : b.testBit i
  · simp
  · have hi := testBit_lt_256 hb hB
    cases hA : a.testBit i
    · simp [hi]
    · have := h i hA
      rw [hB] at this
      exact Bool.noConfusion this

/-- Clearing a mask never sets a flag. -/
theorem andNot8_and_eq_zero {x b : Nat} (a : Nat) (h : x &&& b = 0) : andNot8 x a &&& b = 0 := by
  rw [land_eq_zero_iff] at h ⊢
  intro i hi
  rw [testBit_andNot8] at hi
  apply h
  simp at hi
  exact hi.1

/-- After clearing a mask the mask tests as clear. -/
theorem andNot8_and_self (x a : Nat) : andNot8 x a &&& a = 0 := by
  rw [land_eq_zero_iff]
  intro i hi
  rw [testBit_andNot8] at hi
  simp at hi
  exact hi.2.2

/-- Raising flags keeps a set flag set. -/
theorem or8_and_ne_zero {x b : Nat} (f : Nat) (hb : b < 256) (h : x &&& b ≠ 0) :
    or8 x f &&& b ≠ 0 := by
  intro h0
  apply h
  rw [land_eq_zero_iff] at h0 ⊢
  intro i hi
  by_contra hB
  have hB' : b.testBit i = true := by simpa using hB
  have hi8 := testBit_lt_256 hb hB'
  have := h0 i (by rw [testBit_or8]; simp [hi8, hi])
  rw [hB'] at this
  exact Bool.noConfusion this

/-- Raising a non-zero byte mask sets it. -/
theorem or8_and_self_ne_zero (x : Nat) {b : Nat} (hb : b < 256) (h0 : 0 < b) :
    or8 x b &&& b ≠ 0 := by
  intro h
  rw [land_eq_zero_iff] at h
  have hne : b ≠ 0 := by omega
  obtain ⟨i, hi⟩ := Nat.ne_zero_implies_bit_true hne
  have hi8 := testBit_lt_256 hb hi
  have := h i (by rw [testBit_or8]; simp [hi8, hi])
  rw [hi] at this
  exact Bool.noConfusion this

/-- On a byte, `andNot8` clears exactly the bits of the mask. -/
theorem clearedOnly_andNot8 {x : Nat} (m : Nat) (hx : x < 256) : ClearedOnly x m (andNot8 x m) := by
  intro i
  rw [testBit_andNot8]
  cases hX : x.testBit i
  · simp
  · simp [testBit_lt_256 hx hX]

theorem and_ne_zero_imp_ne_zero {x m : Nat} (h : x &&& m ≠ 0) : x ≠ 0 := by
  intro h0
  apply h
  rw [h0]
  exact Nat.zero_and m

/-! ## The sleep decision -/

theorem sleep_phase_of_pending (inp : Inputs) (s : State) (h : s.task ≠ 0) :
    sleep_phase inp s = (s, [Event.cli, Event.sei]) := by
  unfold sleep_phase
  rw [if_neg h]

theorem sleep_phase_state (inp : Inputs) (s : State) :
    (sleep_phase inp s).1 =
      if s.task = 0 then
        { s with SMCR := 6, sleep_with_ADC := false, task := or8 s.task inp.wake }
      else s := by
  unfold sleep_phase
  by_cases h : s.task = 0
  · simp only [if_pos h]
    cases hA : s.sleep_with_ADC <;> simp [SM0, SM1, SE]
  · simp only [if_neg h]

theorem sleep_phase_sleep_events (inp : Inputs) (s : State) :
    sleep_events (sleep_phase inp s).2 =
      ((sleep_policy (decide (s.task = 0)) (inp.timer0_need_clock || inp.RS_need_clock)
          s.sleep_with_ADC).map SleepDepth.smcr).toList := by
  unfold sleep_phase
  by_cases h : s.task = 0
  · simp only [if_pos h]
    cases hA : s.sleep_with_ADC <;> cases hT : inp.timer0_need_clock <;>
      cases hR : inp.RS_need_clock <;>
      simp [sleep_events, sleep_policy, SleepDepth.smcr, h, SM0, SM1, SE]
  · simp [if_neg h, sleep_events, sleep_policy, h]

theorem sleep_events_append (a b : List Event) :
    sleep_events (a ++ b) = sleep_events a ++ sleep_events b := by
  simp [sleep_events, List.filterMap_append]

theorem kb_branch_sleep_events (k : Consts) (s : State) :
    sleep_events (kb_branch k s).2 = [] := by
  unfold kb_branch
  split_ifs <;> simp [sleep_events]

/-- The radio branch with its nested conditions flattened. -/
theorem rfm_branch_eq (k : Consts) (s : State) :
    rfm_branch k s =
      if s.task &&& k.TASK_RFM ≠ 0 ∧ s.rfm_mode = RfmMode.rfmmode_txd then
        if s.rfm_framepos < s.rfm_framesize then
          if (s.rfm_framepos + 1) % 256 = s.rfm_framesize then
            ({ s with
                task := andNot8 s.task k.TASK_RFM
                rfm_framepos := 0
                rfm_framesize := 0
                rfm_mode := RfmMode.rfmmode_off },
              [Event.rfm_framebuf_read s.rfm_framepos,
               Event.RFM_WRITE (s.rfm_framebuf.getD s.rfm_framepos 0),
               Event.RFM_SPI_SELECT, Event.RFM_OFF, Event.RFM_WRITE 0])
          else
            ({ s with rfm_framepos := (s.rfm_framepos + 1) % 256 },
              [Event.rfm_framebuf_read s.rfm_framepos,
               Event.RFM_WRITE (s.rfm_framebuf.getD s.rfm_framepos 0),
               Event.RFM_SPI_SELECT])
        else if s.rfm_framepos = s.rfm_framesize then
          ({ s with
              task := andNot8 s.task k.TASK_RFM
              rfm_framepos := 0
              rfm_framesize := 0
              rfm_mode := RfmMode.rfmmode_off },
            [Event.RFM_OFF, Event.RFM_WRITE 0])
        else (s, [])
      else (s, []) := by
  unfold rfm_branch rfm_shift_out
  by_cases ht : s.task &&& k.TASK_RFM ≠ 0
  · rw [if_pos ht]
    cases hm : s.rfm_mode
    · simp
    · by_cases hp : s.rfm_framepos < s.rfm_framesize
      · by_cases he : (s.rfm_framepos + 1) % 256 = s.rfm_framesize <;> simp [ht, hp, he]
      · by_cases he : s.rfm_framepos = s.rfm_framesize <;> simp [ht, hp, he]
    · simp
  · rw [if_neg ht]
    simp [ht]

theorem rfm_branch_sleep_events (k : Consts) (s : State) :
    sleep_events (rfm_branch k s).2 = [] := by
  rw [rfm_branch_eq]
  split_ifs <;> simp [sleep_events]

theorem rtc_branch_sleep_events (k : Consts) (inp : Inputs) (s : State) :
    sleep_events (rtc_branch k inp s).2 = [] := by
  unfold rtc_branch rfm_broadcast weekly_recalibration
  split_ifs <;> simp [sleep_events]

theorem menu_branch_sleep_events (inp : Inputs) (s : State) :
    sleep_events (menu_branch inp s).2 = [] := by
  unfold menu_branch
  split_ifs <;> simp [sleep_events]

theorem dispatch_sleep_events (k : Consts) (inp : Inputs) (s : State) :
    sleep_events (dispatch k inp s).2 = [] := by
  unfold dispatch
  split_ifs
  · simp [sleep_events]
  · simp [sleep_events]
  · simp [sleep_events]
  · simp [sleep_events]
  · simp [sleep_events]
  · simp only [late_branches, sleep_events_append, kb_branch_sleep_events,
      rfm_branch_sleep_events, rtc_branch_sleep_events, menu_branch_sleep_events,
      List.append_nil]

/-- C5: the sleep decision is the decision table of the sleep policy, a function
of (register empty, clock needed, ADC armed) only: with pending work nothing is
selected and the state is untouched; with an empty register the `sleep`
instruction runs exactly once, in idle mode if a clock is needed, else in ADC
noise reduction mode if the ADC is armed, else in power-save mode; no other part
of the pass sleeps; and after sleeping the armed flag is false. -/
theorem C5_sleep_decision (k : Consts) (inp : Inputs) (s : State) :
    sleep_events (sleep_phase inp s).2 =
        ((sleep_policy (decide (s.task = 0)) (inp.timer0_need_clock || inp.RS_need_clock)
            s.sleep_with_ADC).map SleepDepth.smcr).toList
      ∧ sleep_events (main_iteration k inp s).2 = sleep_events (sleep_phase inp s).2
      ∧ (sleep_phase inp s).1 =
          (if s.task = 0 then
            { s with SMCR := 6, sleep_with_ADC := false, task := or8 s.task inp.wake }
          else s) := by
  refine ⟨sleep_phase_sleep_events inp s, ?_, sleep_phase_state inp s⟩
  simp only [main_iteration, sleep_events_append, dispatch_sleep_events, List.append_nil]

/-! ## The five restarting branches of the dispatcher -/

theorem Consts.WF.lt {k : Consts} (hk : k.WF) {m : Nat} (hm : m ∈ k.taskMasks) : m < 256 :=
  (hk.1 m hm).2

theorem Consts.WF.pos {k : Consts} (hk : k.WF) {m : Nat} (hm : m ∈ k.taskMasks) : 0 < m :=
  (hk.1 m hm).1

theorem Consts.WF.disjoint {k : Consts} (hk : k.WF) {a b : Nat} (ha : a ∈ k.taskMasks)
    (hb : b ∈ k.taskMasks) (hne : a ≠ b) : a &&& b = 0 := by
  have hsymm : Symmetric (fun a b : Nat => a &&& b = 0) := by
    intro x y hxy
    rw [Nat.and_comm]
    exact hxy
  exact List.Pairwise.forall hsymm hk.2 ha hb hne

theorem handledOnly_of_eq {k : Consts} (hk : k.WF) {inp : Inputs} {s : State} (hs : s.task < 256)
    {mask : Nat} {evs : List Event} (hmask : mask ∈ k.taskMasks)
    (h : main_iteration k inp s =
      ({ s with task := andNot8 s.task mask }, Event.cli :: Event.sei :: evs)) :
    HandledOnly k inp s mask evs := by
  refine ⟨h, ?_, ?_⟩
  · rw [h]
    exact clearedOnly_andNot8 mask hs
  · intro m hm hne
    rw [h]
    exact andNot8_and_of_disjoint (hk.lt hm) (hk.disjoint hmask hm (Ne.symm hne))

/-- C3: with at least one of the five restarting flags pending, one pass of the
main loop handles exactly the first pending flag in the order LCD, ADC, COM,
motor-stop, motor-pulse: only that handler is called, only the bits of that flag
are cleared in the task register, every other task flag (keyboard, radio and
clock tick included) tests as before, and the rest of the state is unchanged. -/
theorem C3_dispatch_one_flag (k : Consts) (hk : k.WF) (inp : Inputs) (s : State)
    (hs : s.task < 256) :
    (s.task &&& k.TASK_LCD ≠ 0 →
        HandledOnly k inp s k.TASK_LCD [Event.task_lcd_update])
    ∧ (s.task &&& k.TASK_LCD = 0 → s.task &&& k.TASK_ADC ≠ 0 →
        HandledOnly k inp s k.TASK_ADC [Event.task_ADC])
    ∧ (s.task &&& k.TASK_LCD = 0 → s.task &&& k.TASK_ADC = 0 → s.task &&& k.TASK_COM ≠ 0 →
        HandledOnly k inp s k.TASK_COM [Event.COM_commad_parse])
    ∧ (s.task &&& k.TASK_LCD = 0 → s.task &&& k.TASK_ADC = 0 → s.task &&& k.TASK_COM = 0 →
        s.task &&& k.TASK_MOTOR_STOP ≠ 0 →
        HandledOnly k inp s k.TASK_MOTOR_STOP [Event.MOTOR_timer_stop])
    ∧ (s.task &&& k.TASK_LCD = 0 → s.task &&& k.TASK_ADC = 0 → s.task &&& k.TASK_COM = 0 →
        s.task &&& k.TASK_MOTOR_STOP = 0 → s.task &&& k.TASK_MOTOR_PULSE ≠ 0 →
        HandledOnly k inp s k.TASK_MOTOR_PULSE
          [Event.MOTOR_updateCalibration inp.mont_contact_pooling, Event.MOTOR_timer_pulse]) := by
  refine ⟨?_, ?_, ?_, ?_, ?_⟩
  · intro h1
    apply handledOnly_of_eq hk hs (by simp [Consts.taskMasks])
    simp [main_iteration, sleep_phase_of_pending inp s (and_ne_zero_imp_ne_zero h1), dispatch, h1]
  · intro h1 h2
    apply handledOnly_of_eq hk hs (by simp [Consts.taskMasks])
    simp [main_iteration, sleep_phase_of_pending inp s (and_ne_zero_imp_ne_zero h2), dispatch,
      h1, h2]
  · intro h1 h2 h3
    apply handledOnly_of_eq hk hs (by simp [Consts.taskMasks])
    simp [main_iteration, sleep_phase_of_pending inp s (and_ne_zero_imp_ne_zero h3), dispatch,
      h1, h2, h3]
  · intro h1 h2 h3 h4
    apply handledOnly_of_eq hk hs (by simp [Consts.taskMasks])
    simp [main_iteration, sleep_phase_of_pending inp s (and_ne_zero_imp_ne_zero h4), dispatch,
      h1, h2, h3, h4]
  · intro h1 h2 h3 h4 h5
    apply handledOnly_of_eq hk hs (by simp [Consts.taskMasks])
    simp [main_iteration, sleep_phase_of_pending inp s (and_ne_zero_imp_ne_zero h5), dispatch,
      h1, h2, h3, h4, h5]

/-! ## Start-up and the fatal-error loop -/

theorem run_loop_halted_events (k : Consts) (steps : List Step) (s : State) :
    (run_loop k Pc.halted steps s).2 = [] := by
  induction steps generalizing s with
  | nil => rfl
  | cons st rest ih =>
    cases st with
    | env flags adc timeout => simpa [run_loop] using ih _
    | cycle inp => simpa [run_loop] using ih _

theorem run_loop_halted_state (k : Consts) (steps : List Step) (s : State) :
    (run_loop k Pc.halted steps s).1.task = raised_flags steps s.task
      ∧ (run_loop k Pc.halted steps s).1.rfm_framebuf = s.rfm_framebuf
      ∧ (run_loop k Pc.halted steps s).1.rfm_framesize = s.rfm_framesize
      ∧ (run_loop k Pc.halted steps s).1.rfm_framepos = s.rfm_framepos
      ∧ (run_loop k Pc.halted steps s).1.rfm_mode = s.rfm_mode
      ∧ (run_loop k Pc.halted steps s).1.valve_wanted = s.valve_wanted
      ∧ (run_loop k Pc.halted steps s).1.SMCR = s.SMCR := by
  induction steps generalizing s with
  | nil => simp [run_loop, raised_flags]
  | cons st rest ih =>
    cases st with
    | env flags adc timeout => simpa [run_loop, raised_flags, env_step] using ih _
    | cycle inp => simpa [run_loop, raised_flags] using ih _

/-- C9: if the layout version read at start-up differs from `EE_LAYOUT`, `main()`
ends in the fatal-error loop: whatever flags are raised afterwards and however
long the program runs, no event follows the start-up events (no handler is
called), the task register holds every raised flag (none is cleared), and the
radio state, the valve command and `SMCR` stay as they were; if the version
matches, `main()` calls `COM_init` and runs the main loop. -/
theorem C9_layout_mismatch_halts (k : Consts) (ee_layout : Nat) (steps : List Step) (s : State) :
    if ee_layout ≠ k.EE_LAYOUT then
      (main k ee_layout steps s).1 = Pc.halted
        ∧ (main k ee_layout steps s).2.2 = halt_events k
        ∧ (main k ee_layout steps s).2.1.task = raised_flags steps 0
        ∧ (main k ee_layout steps s).2.1.rfm_framebuf = s.rfm_framebuf
        ∧ (main k ee_layout steps s).2.1.rfm_framesize = s.rfm_framesize
        ∧ (main k ee_layout steps s).2.1.rfm_framepos = s.rfm_framepos
        ∧ (main k ee_layout steps s).2.1.rfm_mode = s.rfm_mode
        ∧ (main k ee_layout steps s).2.1.valve_wanted = s.valve_wanted
        ∧ (main k ee_layout steps s).2.1.SMCR = s.SMCR
    else
      main k ee_layout steps s =
        (Pc.main_loop, (exec k steps { s with task := 0 }).1,
          init ++ [Event.sei, Event.EEPROM_read, Event.COM_init]
            ++ (exec k steps { s with task := 0 }).2) := by
  by_cases h : ee_layout ≠ k.EE_LAYOUT
  · rw [if_pos h]
    have hst := run_loop_halted_state k steps { s with task := 0 }
    have hev := run_loop_halted_events k steps { s with task := 0 }
    simp only [main, main_startup, if_pos h, hev, List.append_nil, halt_events]
    exact ⟨trivial, trivial, hst⟩
  · rw [if_neg h]
    simp only [main, main_startup, if_neg h, run_loop]


/-! ## The checksum -/

theorem crc_ibutton_shift_xor (c d : Nat) :
    crc_ibutton_shift (c ^^^ d) = crc8_dallas_bit c (d.testBit 0) ^^^ (d / 2) := by
  unfold crc_ibutton_shift crc8_dallas_bit
  have hdiv : (c ^^^ d) >>> 1 = c / 2 ^^^ d / 2 := by
    rw [Nat.shiftRight_one, Nat.xor_div_two]
  have hbit : ((c ^^^ d) &&& 1 ≠ 0) ↔ (((c % 2 == 1) != d.testBit 0) = true) := by
    have h0 := Nat.testBit_xor c d 0
    simp only [Nat.testBit_zero] at h0
    rw [Nat.and_one_is_mod]
    have hc := Nat.mod_two_eq_zero_or_one c
    have hd := Nat.mod_two_eq_zero_or_one d
    have hx := Nat.mod_two_eq_zero_or_one (c ^^^ d)
    rcases hc with hc | hc <;> rcases hd with hd | hd <;> rcases hx with hx | hx <;>
      simp_all
  by_cases hm : ((c % 2 == 1) != d.testBit 0) = true
  · rw [if_pos (hbit.mpr hm), if_pos hm, hdiv, Nat.xor_assoc, Nat.xor_comm (d / 2),
      ← Nat.xor_assoc]
  · rw [if_neg (fun h => hm (hbit.mp h)), if_neg hm, hdiv]

theorem crc_ibutton_shift_iterate (n : Nat) : ∀ c d : Nat,
    crc_ibutton_shift^[n] (c ^^^ d) =
      ((List.range n).map (fun i => d.testBit i)).foldl crc8_dallas_bit c ^^^ (d >>> n) := by
  induction n with
  | zero => intro c d; simp
  | succ n ih =>
    intro c d
    rw [Function.iterate_succ_apply, crc_ibutton_shift_xor, ih, List.range_succ_eq_map]
    simp only [List.map_cons, List.map_map, List.foldl_cons]
    have h1 : ((fun i => d.testBit i) ∘ Nat.succ) = (fun i => (d / 2).testBit i) := by
      funext i
      simp [Nat.testBit_succ]
    rw [h1]
    congr 1
    rw [Nat.shiftRight_succ_inside]

/-- The avr-libc update step computes the one-wire CRC-8 of one more byte. -/
theorem crc_ibutton_update_eq (c d : Nat) (hd : d < 256) :
    _crc_ibutton_update c d = (bits_lsb_first d).foldl crc8_dallas_bit c := by
  unfold _crc_ibutton_update bits_lsb_first
  rw [crc_ibutton_shift_iterate]
  have : d >>> 8 = 0 := by
    rw [Nat.shiftRight_eq_div_pow]
    exact Nat.div_eq_of_lt (by simpa using hd)
  rw [this, Nat.xor_zero]
/-! ## The radio state through the branches of one pass -/

theorem sleep_phase_radio (inp : Inputs) (s : State) :
    (sleep_phase inp s).1.radio = s.radio := by
  rw [sleep_phase_state]
  split_ifs <;> rfl

theorem kb_branch_radio (k : Consts) (s : State) : (kb_branch k s).1.radio = s.radio := by
  unfold kb_branch
  split_ifs <;> rfl

theorem menu_branch_state (inp : Inputs) (s : State) : (menu_branch inp s).1 = s := by
  unfold menu_branch
  split_ifs <;> rfl

theorem rfm_broadcast_eq_of_gate (k : Consts) (inp : Inputs) (s : State)
    (h : broadcast_gate k inp = true) :
    rfm_broadcast k inp s =
      ({ s with
          rfm_framebuf := assemble_frame k inp s.rfm_framebuf
          rfm_framesize := 14
          rfm_framepos := 0
          task := or8 s.task k.TASK_RFM
          rfm_mode := RfmMode.rfmmode_txd },
        [Event.RFM_TX_ON, Event.RFM_SPI_SELECT]) := by
  unfold rfm_broadcast
  rw [if_pos h]

theorem rfm_broadcast_eq_of_not_gate (k : Consts) (inp : Inputs) (s : State)
    (h : broadcast_gate k inp = false) : rfm_broadcast k inp s = (s, []) := by
  unfold rfm_broadcast
  simp [h]

theorem rtc_branch_of_not_pending (k : Consts) (inp : Inputs) (s : State)
    (h : s.task &&& k.TASK_RTC = 0) : rtc_branch k inp s = (s, []) := by
  unfold rtc_branch
  simp [h]

/-- The radio state after the control tick: a new frame if the tick is pending
and the broadcast condition holds, the old state otherwise. -/
theorem rtc_branch_radio (k : Consts) (inp : Inputs) (s : State) :
    (rtc_branch k inp s).1.radio =
      if s.task &&& k.TASK_RTC ≠ 0 ∧ broadcast_gate k inp = true then
        (assemble_frame k inp s.rfm_framebuf, 14, 0, RfmMode.rfmmode_txd)
      else s.radio := by
  unfold rtc_branch
  by_cases ht : s.task &&& k.TASK_RTC ≠ 0
  · cases hg : broadcast_gate k inp
    · simp [ht, hg, rfm_broadcast_eq_of_not_gate, State.radio]
    · simp [ht, hg, rfm_broadcast_eq_of_gate, State.radio]
  · simp [ht]

theorem rtc_branch_tx_on (k : Consts) (inp : Inputs) (s : State) :
    Event.RFM_TX_ON ∈ (rtc_branch k inp s).2 ↔
      (s.task &&& k.TASK_RTC ≠ 0 ∧ broadcast_gate k inp = true) := by
  unfold rtc_branch
  by_cases ht : s.task &&& k.TASK_RTC ≠ 0
  · cases hg : broadcast_gate k inp
    · simp [ht, hg, rfm_broadcast_eq_of_not_gate, weekly_recalibration]
    · simp [ht, hg, rfm_broadcast_eq_of_gate]
  · simp [ht]

theorem rtc_branch_tick (k : Consts) (inp : Inputs) (s : State) :
    Event.RTC_AddOneSecond ∈ (rtc_branch k inp s).2 ↔ s.task &&& k.TASK_RTC ≠ 0 := by
  unfold rtc_branch
  by_cases ht : s.task &&& k.TASK_RTC ≠ 0
  · simp [ht]
  · simp [ht]

theorem kb_branch_events (k : Consts) (s : State) :
    (kb_branch k s).2 = [] ∨ (kb_branch k s).2 = [Event.task_keyboard] := by
  unfold kb_branch
  split_ifs <;> simp

theorem rfm_branch_framebuf (k : Consts) (s : State) :
    (rfm_branch k s).1.rfm_framebuf = s.rfm_framebuf := by
  rw [rfm_branch_eq]
  split_ifs <;> rfl

theorem rfm_branch_no_tx_on (k : Consts) (s : State) :
    Event.RFM_TX_ON ∉ (rfm_branch k s).2 := by
  rw [rfm_branch_eq]
  split_ifs <;> simp

theorem rfm_branch_no_tick (k : Consts) (s : State) :
    Event.RTC_AddOneSecond ∉ (rfm_branch k s).2 := by
  rw [rfm_branch_eq]
  split_ifs <;> simp

theorem kb_branch_no_tx_on (k : Consts) (s : State) :
    Event.RFM_TX_ON ∉ (kb_branch k s).2 := by
  rcases kb_branch_events k s with h | h <;> simp [h]

theorem kb_branch_no_tick (k : Consts) (s : State) :
    Event.RTC_AddOneSecond ∉ (kb_branch k s).2 := by
  rcases kb_branch_events k s with h | h <;> simp [h]

theorem menu_branch_no_tx_on (inp : Inputs) (s : State) :
    Event.RFM_TX_ON ∉ (menu_branch inp s).2 := by
  unfold menu_branch
  split_ifs <;> simp

theorem menu_branch_no_tick (inp : Inputs) (s : State) :
    Event.RTC_AddOneSecond ∉ (menu_branch inp s).2 := by
  unfold menu_branch
  split_ifs <;> simp

theorem sleep_phase_no_tx_on (inp : Inputs) (s : State) :
    Event.RFM_TX_ON ∉ (sleep_phase inp s).2 := by
  unfold sleep_phase
  split_ifs <;> simp

theorem sleep_phase_no_tick (inp : Inputs) (s : State) :
    Event.RTC_AddOneSecond ∉ (sleep_phase inp s).2 := by
  unfold sleep_phase
  split_ifs <;> simp

/-- The dispatcher either runs one restarting branch, which changes the task
register only, or runs the branches behind them. -/
theorem dispatch_restart_or_late (k : Consts) (inp : Inputs) (s : State) :
    (∃ m evs, dispatch k inp s = ({ s with task := andNot8 s.task m }, evs)
        ∧ evs ∈ restart_events inp ∧ s.task &&& m ≠ 0 ∧ m ∈ k.restartMasks)
      ∨ (dispatch k inp s = late_branches k inp s
          ∧ s.task &&& k.TASK_LCD = 0 ∧ s.task &&& k.TASK_ADC = 0 ∧ s.task &&& k.TASK_COM = 0
          ∧ s.task &&& k.TASK_MOTOR_STOP = 0 ∧ s.task &&& k.TASK_MOTOR_PULSE = 0) := by
  unfold dispatch
  by_cases h1 : s.task &&& k.TASK_LCD ≠ 0
  · exact Or.inl ⟨_, _, by rw [if_pos h1], by simp [restart_events], h1,
      by simp [Consts.restartMasks]⟩
  by_cases h2 : s.task &&& k.TASK_ADC ≠ 0
  · exact Or.inl ⟨_, _, by rw [if_neg h1, if_pos h2], by simp [restart_events], h2,
      by simp [Consts.restartMasks]⟩
  by_cases h3 : s.task &&& k.TASK_COM ≠ 0
  · exact Or.inl ⟨_, _, by rw [if_neg h1, if_neg h2, if_pos h3], by simp [restart_events], h3,
      by simp [Consts.restartMasks]⟩
  by_cases h4 : s.task &&& k.TASK_MOTOR_STOP ≠ 0
  · exact Or.inl ⟨_, _, by rw [if_neg h1, if_neg h2, if_neg h3, if_pos h4],
      by simp [restart_events], h4, by simp [Consts.restartMasks]⟩
  by_cases h5 : s.task &&& k.TASK_MOTOR_PULSE ≠ 0
  · exact Or.inl ⟨_, _, by rw [if_neg h1, if_neg h2, if_neg h3, if_neg h4, if_pos h5],
      by simp [restart_events], h5, by simp [Consts.restartMasks]⟩
  · refine Or.inr ⟨by rw [if_neg h1, if_neg h2, if_neg h3, if_neg h4, if_neg h5], ?_⟩
    exact ⟨not_not.mp h1, not_not.mp h2, not_not.mp h3, not_not.mp h4, not_not.mp h5⟩

theorem radio_eq_iff (s t : State) :
    s.radio = t.radio ↔
      s.rfm_framebuf = t.rfm_framebuf ∧ s.rfm_framesize = t.rfm_framesize
        ∧ s.rfm_framepos = t.rfm_framepos ∧ s.rfm_mode = t.rfm_mode := by
  simp [State.radio]

theorem restart_events_no_tx_on {inp : Inputs} {evs : List Event}
    (h : evs ∈ restart_events inp) : Event.RFM_TX_ON ∉ evs := by
  simp only [restart_events, List.mem_cons, List.mem_singleton, List.not_mem_nil, or_false] at h
  rcases h with h | h | h | h | h <;> simp [h]

theorem restart_events_no_tick {inp : Inputs} {evs : List Event}
    (h : evs ∈ restart_events inp) : Event.RTC_AddOneSecond ∉ evs := by
  simp only [restart_events, List.mem_cons, List.mem_singleton, List.not_mem_nil, or_false] at h
  rcases h with h | h | h | h | h <;> simp [h]

theorem late_branches_tx_on (k : Consts) (inp : Inputs) (s : State) :
    Event.RFM_TX_ON ∈ (late_branches k inp s).2 ↔
      ((rfm_branch k (kb_branch k s).1).1.task &&& k.TASK_RTC ≠ 0
        ∧ broadcast_gate k inp = true) := by
  simp only [late_branches, List.mem_append, kb_branch_no_tx_on, rfm_branch_no_tx_on,
    menu_branch_no_tx_on, rtc_branch_tx_on, false_or, or_false]

theorem late_branches_tick (k : Consts) (inp : Inputs) (s : State) :
    Event.RTC_AddOneSecond ∈ (late_branches k inp s).2 ↔
      (rfm_branch k (kb_branch k s).1).1.task &&& k.TASK_RTC ≠ 0 := by
  simp only [late_branches, List.mem_append, kb_branch_no_tick, rfm_branch_no_tick,
    menu_branch_no_tick, rtc_branch_tick, false_or, or_false]

theorem late_branches_radio (k : Consts) (inp : Inputs) (s : State) :
    (late_branches k inp s).1.radio =
      if Event.RFM_TX_ON ∈ (late_branches k inp s).2 then
        (assemble_frame k inp s.rfm_framebuf, 14, 0, RfmMode.rfmmode_txd)
      else (rfm_branch k (kb_branch k s).1).1.radio := by
  have hkb := ((radio_eq_iff _ _).mp (kb_branch_radio k s)).1
  by_cases h : Event.RFM_TX_ON ∈ (late_branches k inp s).2
  · rw [if_pos h]
    have h2 := (late_branches_tx_on k inp s).mp h
    simp only [late_branches, menu_branch_state, rtc_branch_radio, if_pos h2,
      rfm_branch_framebuf, hkb]
  · rw [if_neg h]
    have h2 := fun h3 => h ((late_branches_tx_on k inp s).mpr h3)
    simp only [late_branches, menu_branch_state, rtc_branch_radio, if_neg h2]

/-- A pass that issues `RFM_TX_ON` leaves a freshly assembled frame queued. -/
theorem main_iteration_radio_of_tx_on (k : Consts) (inp : Inputs) (s : State)
    (h : Event.RFM_TX_ON ∈ (main_iteration k inp s).2) :
    (main_iteration k inp s).1.radio =
      (assemble_frame k inp s.rfm_framebuf, 14, 0, RfmMode.rfmmode_txd) := by
  simp only [main_iteration, List.mem_append, sleep_phase_no_tx_on, false_or] at h ⊢
  have hbuf := ((radio_eq_iff _ _).mp (sleep_phase_radio inp s)).1
  rcases dispatch_restart_or_late k inp (sleep_phase inp s).1 with ⟨m, evs, hd, hev, _⟩ | ⟨hd, _⟩
  · rw [hd] at h
    exact absurd h (restart_events_no_tx_on hev)
  · rw [hd] at h ⊢
    rw [late_branches_radio, if_pos h, hbuf]

/-- The frame a pass assembles, as a function of the inputs, when the buffer has
room for it. -/
theorem assemble_frame_take (k : Consts) (inp : Inputs) (buf : List Nat)
    (hcap : 14 ≤ buf.length) :
    (assemble_frame k inp buf).take 14 =
      [0xAA, 0xAA, 0x2D, 0xD4, 9,
       (k.RFMPROTO_FLAGS_PACKETTYPE_BROADCAST ||| k.RFMPROTO_FLAGS_DEVICETYPE_OPENHR20) % 256,
       inp.RFM_devaddr % 256, HIBYTE inp.temp_average, LOBYTE inp.temp_average,
       inp.CTL_temp_wanted % 256, inp.MOTOR_GetPosPercent % 256, statusbits k inp,
       crc8_dallas [9,
         (k.RFMPROTO_FLAGS_PACKETTYPE_BROADCAST ||| k.RFMPROTO_FLAGS_DEVICETYPE_OPENHR20) % 256,
         inp.RFM_devaddr % 256, HIBYTE inp.temp_average, LOBYTE inp.temp_average,
         inp.CTL_temp_wanted % 256, inp.MOTOR_GetPosPercent % 256, statusbits k inp],
       0xAA] := by
  rcases buf with _ | ⟨b0, buf⟩
  · simp at hcap
  rcases buf with _ | ⟨b1, buf⟩
  · simp at hcap
  rcases buf with _ | ⟨b2, buf⟩
  · simp at hcap
  rcases buf with _ | ⟨b3, buf⟩
  · simp at hcap
  rcases buf with _ | ⟨b4, buf⟩
  · simp at hcap
  rcases buf with _ | ⟨b5, buf⟩
  · simp at hcap
  rcases buf with _ | ⟨b6, buf⟩
  · simp at hcap
  rcases buf with _ | ⟨b7, buf⟩
  · simp at hcap
  rcases buf with _ | ⟨b8, buf⟩
  · simp at hcap
  rcases buf with _ | ⟨b9, buf⟩
  · simp at hcap
  rcases buf with _ | ⟨b10, buf⟩
  · simp at hcap
  rcases buf with _ | ⟨b11, buf⟩
  · simp at hcap
  rcases buf with _ | ⟨b12, buf⟩
  · simp at hcap
  rcases buf with _ | ⟨b13, buf⟩
  · simp at hcap
  have hsb : statusbits k inp < 256 := by
    unfold statusbits
    split_ifs <;> exact Nat.mod_lt _ (by norm_num)
  have hhi : HIBYTE inp.temp_average < 256 := Nat.mod_lt _ (by norm_num)
  have hlo : LOBYTE inp.temp_average < 256 := Nat.mod_lt _ (by norm_num)
  simp only [assemble_frame, frame_crc, List.set_cons_zero, List.set_cons_succ, List.take_succ_cons,
    List.take_zero, List.range', List.foldl_cons, List.foldl_nil, List.getD_cons_zero,
    List.getD_cons_succ, crc8_dallas]
  rw [crc_ibutton_update_eq _ 9 (by norm_num),
    crc_ibutton_update_eq _ _ (Nat.mod_lt _ (by norm_num)),
    crc_ibutton_update_eq _ _ (Nat.mod_lt _ (by norm_num)),
    crc_ibutton_update_eq _ _ hhi, crc_ibutton_update_eq _ _ hlo,
    crc_ibutton_update_eq _ _ (Nat.mod_lt _ (by norm_num)),
    crc_ibutton_update_eq _ _ (Nat.mod_lt _ (by norm_num)),
    crc_ibutton_update_eq _ _ hsb]

theorem statusbits_eq (k : Consts) (inp : Inputs) (he : inp.CTL_error < 256)
    (h0 : k.CTL_ERR_NA_0 < 256) (h1 : k.CTL_ERR_NA_1 < 256) :
    statusbits k inp = status_byte k inp.CTL_error inp.CTL_mode_auto inp.mode_window := by
  have hor : ∀ a b : Nat, a < 256 → b < 256 → (a ||| b) % 256 = a ||| b := by
    intro a b ha hb
    apply Nat.mod_eq_of_lt
    have : a ||| b < 2 ^ 8 := Nat.or_lt_two_pow (by simpa using ha) (by simpa using hb)
    simpa using this
  unfold statusbits status_byte
  rw [Nat.mod_eq_of_lt he]
  cases hA : inp.CTL_mode_auto <;> cases hW : inp.mode_window
  · simp [hor _ _ he h0]
  · have h2 : inp.CTL_error ||| k.CTL_ERR_NA_0 < 256 := by
      rw [← hor _ _ he h0]
      exact Nat.mod_lt _ (by norm_num)
    simp [hor _ _ he h0, hor _ _ h2 h1]
  · simp
  · simp [hor _ _ he h1]

/-! ## The control tick -/

theorem calibration_calls_append (a b : List Event) :
    calibration_calls (a ++ b) = calibration_calls a ++ calibration_calls b := by
  simp [calibration_calls, List.filterMap_append]

theorem sleep_phase_calibration_calls (inp : Inputs) (s : State) :
    calibration_calls (sleep_phase inp s).2 = [] := by
  unfold sleep_phase
  split_ifs <;> simp [calibration_calls]

theorem kb_branch_calibration_calls (k : Consts) (s : State) :
    calibration_calls (kb_branch k s).2 = [] := by
  rcases kb_branch_events k s with h | h <;> simp [h, calibration_calls]

theorem rfm_branch_calibration_calls (k : Consts) (s : State) :
    calibration_calls (rfm_branch k s).2 = [] := by
  rw [rfm_branch_eq]
  split_ifs <;> simp [calibration_calls]

theorem menu_branch_calibration_calls (inp : Inputs) (s : State) :
    calibration_calls (menu_branch inp s).2 = [] := by
  unfold menu_branch
  split_ifs <;> simp [calibration_calls]

theorem rtc_branch_calibration_calls (k : Consts) (inp : Inputs) (s : State)
    (h : s.task &&& k.TASK_RTC ≠ 0) :
    calibration_calls (rtc_branch k inp s).2 =
      (if inp.RTC_AddOneSecond = true ∧ inp.RTC_GetDayOfWeek = 6 ∧ inp.RTC_GetHour = 10
          ∧ inp.RTC_GetMinute = 0 then [0] else []) ++ [inp.mont_contact_pooling] := by
  unfold rtc_branch
  rw [if_pos h]
  have hb : calibration_calls (rfm_broadcast k inp
      { task := andNot8 s.task k.TASK_RTC, sleep_with_ADC := s.sleep_with_ADC, SMCR := s.SMCR,
        valve_wanted := inp.CTL_update % 256,
        menu_auto_update_timeout := s.menu_auto_update_timeout,
        rfm_framebuf := s.rfm_framebuf, rfm_framesize := s.rfm_framesize,
        rfm_framepos := s.rfm_framepos, rfm_mode := s.rfm_mode }).2 = [] := by
    unfold rfm_broadcast
    split_ifs <;> simp [calibration_calls]
  have hw : calibration_calls (weekly_recalibration inp) =
      (if inp.RTC_AddOneSecond = true ∧ inp.RTC_GetDayOfWeek = 6 ∧ inp.RTC_GetHour = 10
          ∧ inp.RTC_GetMinute = 0 then [0] else []) := by
    unfold weekly_recalibration
    by_cases hc : inp.RTC_AddOneSecond = true ∧ inp.RTC_GetDayOfWeek = 6 ∧ inp.RTC_GetHour = 10
        ∧ inp.RTC_GetMinute = 0
    · rw [if_pos hc]
      simp [hc.1, hc.2.1, hc.2.2.1, hc.2.2.2, calibration_calls]
    · rw [if_neg hc]
      have : (inp.RTC_AddOneSecond && inp.RTC_GetDayOfWeek == 6 && inp.RTC_GetHour == 10
          && inp.RTC_GetMinute == 0) = false := by
        simp only [Bool.and_eq_false_iff, beq_eq_false_iff_ne, ne_eq]
        by_contra hn
        apply hc
        simp only [not_or, not_not, Bool.not_eq_false] at hn
        exact ⟨hn.1.1.1, hn.1.1.2, hn.1.2, hn.2⟩
      simp [this, calibration_calls]
  simp only [calibration_calls_append, hb, hw]
  simp [calibration_calls]

/-- C6: in a pass that handles the clock tick, `MOTOR_updateCalibration` is called
with argument 0 ahead of the regular position update if and only if the tick
crossed a minute boundary and the time is day-of-week 6, hour 10, minute 0; in
every other tick the regular update with the polled contact count is the only
calibration call. -/
theorem C6_weekly_recalibration (k : Consts) (inp : Inputs) (s : State)
    (htick : Event.RTC_AddOneSecond ∈ (main_iteration k inp s).2) :
    calibration_calls (main_iteration k inp s).2 =
      (if inp.RTC_AddOneSecond = true ∧ inp.RTC_GetDayOfWeek = 6 ∧ inp.RTC_GetHour = 10
          ∧ inp.RTC_GetMinute = 0 then [0] else []) ++ [inp.mont_contact_pooling] := by
  simp only [main_iteration, List.mem_append, sleep_phase_no_tick, false_or] at htick
  simp only [main_iteration, calibration_calls_append, sleep_phase_calibration_calls,
    List.nil_append]
  rcases dispatch_restart_or_late k inp (sleep_phase inp s).1 with ⟨m, evs, hd, hev, _⟩ | ⟨hd, _⟩
  · rw [hd] at htick
    exact absurd htick (restart_events_no_tick hev)
  · rw [hd] at htick ⊢
    have hp := (late_branches_tick k inp _).mp htick
    simp only [late_branches, calibration_calls_append, kb_branch_calibration_calls,
      rfm_branch_calibration_calls, menu_branch_calibration_calls,
      rtc_branch_calibration_calls k inp _ hp, List.nil_append, List.append_nil]

/-- C2: whenever a pass of the loop assembles a broadcast (it issues `RFM_TX_ON`),
the first 14 bytes of `rfm_framebuf` are the frame
`AA AA 2D D4 09 flags addr temp_hi temp_lo wanted valve status crc AA`, where the
status byte is the error byte with `CTL_ERR_NA_0` in manual mode and
`CTL_ERR_NA_1` with an open window, and `crc` is the Dallas CRC-8 of offsets 4 to
11; `rfm_framesize` is 14 and `rfm_framepos` is 0. -/
theorem C2_broadcast_frame (k : Consts) (inp : Inputs) (s : State)
    (hcap : 14 ≤ s.rfm_framebuf.length)
    (hasm : Event.RFM_TX_ON ∈ (main_iteration k inp s).2)
    (ht : inp.temp_average < 65536) (hw : inp.CTL_temp_wanted < 256)
    (hv : inp.MOTOR_GetPosPercent < 256) (ha : inp.RFM_devaddr < 256)
    (he : inp.CTL_error < 256)
    (hf : k.RFMPROTO_FLAGS_PACKETTYPE_BROADCAST ||| k.RFMPROTO_FLAGS_DEVICETYPE_OPENHR20 < 256)
    (h0 : k.CTL_ERR_NA_0 < 256) (h1 : k.CTL_ERR_NA_1 < 256) :
    (main_iteration k inp s).1.rfm_framebuf.take 14 =
        broadcast_frame
          (k.RFMPROTO_FLAGS_PACKETTYPE_BROADCAST ||| k.RFMPROTO_FLAGS_DEVICETYPE_OPENHR20)
          inp.RFM_devaddr inp.temp_average inp.CTL_temp_wanted inp.MOTOR_GetPosPercent
          (status_byte k inp.CTL_error inp.CTL_mode_auto inp.mode_window)
      ∧ (main_iteration k inp s).1.rfm_framesize = 14
      ∧ (main_iteration k inp s).1.rfm_framepos = 0 := by
  have hr := main_iteration_radio_of_tx_on k inp s hasm
  simp only [State.radio, Prod.mk.injEq] at hr
  refine ⟨?_, hr.2.1, hr.2.2.1⟩
  rw [hr.1, assemble_frame_take k inp s.rfm_framebuf hcap, statusbits_eq k inp he h0 h1]
  have hhi : HIBYTE inp.temp_average = inp.temp_average >>> 8 := by
    unfold HIBYTE
    apply Nat.mod_eq_of_lt
    rw [Nat.shiftRight_eq_div_pow]
    apply Nat.div_lt_of_lt_mul
    simpa using ht
  have hlo : LOBYTE inp.temp_average = inp.temp_average &&& 0xFF := by
    unfold LOBYTE
    exact (Nat.and_pow_two_sub_one_eq_mod inp.temp_average 8).symm
  rw [hhi, hlo, Nat.mod_eq_of_lt hf, Nat.mod_eq_of_lt ha, Nat.mod_eq_of_lt hw,
    Nat.mod_eq_of_lt hv]
  rfl

/-! ## The radio state over whole passes -/

theorem Consts.WF.rfm_disjoint {k : Consts} (hk : k.WF) :
    k.TASK_LCD &&& k.TASK_RFM = 0 ∧ k.TASK_ADC &&& k.TASK_RFM = 0
      ∧ k.TASK_COM &&& k.TASK_RFM = 0 ∧ k.TASK_MOTOR_STOP &&& k.TASK_RFM = 0
      ∧ k.TASK_MOTOR_PULSE &&& k.TASK_RFM = 0 ∧ k.TASK_KB &&& k.TASK_RFM = 0
      ∧ k.TASK_RTC &&& k.TASK_RFM = 0 := by
  have h := hk.2
  simp only [Consts.taskMasks, List.pairwise_cons, List.mem_cons, List.mem_singleton,
    forall_eq_or_imp, forall_eq] at h
  obtain ⟨h1, h2, h3, h4, h5, h6, h7, -⟩ := h
  refine ⟨h1.2.2.2.2.2.1, h2.2.2.2.2.1, h3.2.2.2.1, h4.2.2.1, h5.2.1, h6.1, ?_⟩
  rw [Nat.and_comm]
  exact h7.1

theorem Consts.WF.rfm_lt {k : Consts} (hk : k.WF) : k.TASK_RFM < 256 :=
  hk.lt (by simp [Consts.taskMasks])

theorem Consts.WF.rfm_pos {k : Consts} (hk : k.WF) : 0 < k.TASK_RFM :=
  hk.pos (by simp [Consts.taskMasks])

theorem rfm_branch_radio_step (k : Consts) (s : State) :
    RadioStep s.radio (rfm_branch k s).1.radio := by
  rw [rfm_branch_eq]
  unfold RadioStep State.radio
  by_cases h : s.task &&& k.TASK_RFM ≠ 0 ∧ s.rfm_mode = RfmMode.rfmmode_txd
  · rw [if_pos h]
    by_cases hp : s.rfm_framepos < s.rfm_framesize
    · rw [if_pos hp]
      by_cases he : (s.rfm_framepos + 1) % 256 = s.rfm_framesize
      · rw [if_pos he]
        exact Or.inr (Or.inr ⟨h.2, Or.inl ⟨hp, he⟩, rfl⟩)
      · rw [if_neg he]
        exact Or.inr (Or.inl ⟨h.2, hp, he, by simp [h.2]⟩)
    · rw [if_neg hp]
      by_cases he : s.rfm_framepos = s.rfm_framesize
      · rw [if_pos he]
        exact Or.inr (Or.inr ⟨h.2, Or.inr he, rfl⟩)
      · rw [if_neg he]
        exact Or.inl rfl
  · rw [if_neg h]
    exact Or.inl rfl

theorem late_branches_radio_step (k : Consts) (inp : Inputs) (s : State)
    (h : Event.RFM_TX_ON ∉ (late_branches k inp s).2) :
    RadioStep s.radio (late_branches k inp s).1.radio := by
  rw [late_branches_radio, if_neg h, ← kb_branch_radio k s]
  exact rfm_branch_radio_step k _

/-- A pass that does not assemble a frame changes the radio state by at most one
step of the transmitter. -/
theorem main_iteration_radio_step (k : Consts) (inp : Inputs) (s : State)
    (h : Event.RFM_TX_ON ∉ (main_iteration k inp s).2) :
    RadioStep s.radio (main_iteration k inp s).1.radio := by
  simp only [main_iteration, List.mem_append, sleep_phase_no_tx_on, false_or] at h ⊢
  rw [← sleep_phase_radio inp s]
  rcases dispatch_restart_or_late k inp (sleep_phase inp s).1 with ⟨m, evs, hd, _, _⟩ | ⟨hd, _⟩
  · rw [hd]
    exact Or.inl rfl
  · rw [hd] at h ⊢
    exact late_branches_radio_step k inp _ h

theorem frameInv_of_radioStep {s t : State} (hs : FrameInv s) (h : RadioStep s.radio t.radio) :
    FrameInv t := by
  unfold FrameInv at *
  unfold RadioStep State.radio at h
  simp only [Prod.mk.injEq] at h
  rcases h with h | ⟨-, hlt, hne, h⟩ | ⟨-, -, h⟩
  · rw [h.2.1, h.2.2.1]
    exact hs
  · rw [h.2.1, h.2.2.1]
    have : (s.rfm_framepos + 1) % 256 = s.rfm_framepos + 1 := Nat.mod_eq_of_lt (by omega)
    omega
  · rw [h.2.1, h.2.2.1]
    omega

theorem main_iteration_frameInv (k : Consts) (inp : Inputs) (s : State) (hs : FrameInv s) :
    FrameInv (main_iteration k inp s).1 := by
  by_cases h : Event.RFM_TX_ON ∈ (main_iteration k inp s).2
  · have hr := main_iteration_radio_of_tx_on k inp s h
    simp only [State.radio, Prod.mk.injEq] at hr
    unfold FrameInv
    rw [hr.2.1, hr.2.2.1]
    omega
  · exact frameInv_of_radioStep hs (main_iteration_radio_step k inp s h)

theorem step_frameInv (k : Consts) (st : Step) (s : State) (hs : FrameInv s) :
    FrameInv (step k st s).1 := by
  cases st with
  | env flags adc timeout => exact hs
  | cycle inp => exact main_iteration_frameInv k inp s hs

theorem exec_frameInv (k : Consts) (steps : List Step) (s : State) (hs : FrameInv s) :
    FrameInv (exec k steps s).1 := by
  induction steps generalizing s with
  | nil => exact hs
  | cons st rest ih => exact ih _ (step_frameInv k st s hs)

theorem rfm_branch_read (k : Consts) (s : State) (i : Nat)
    (h : Event.rfm_framebuf_read i ∈ (rfm_branch k s).2) :
    i = s.rfm_framepos ∧ s.rfm_framepos < s.rfm_framesize := by
  rw [rfm_branch_eq] at h
  split_ifs at h with h1 h2 h3 h4 <;> simp at h
  · exact ⟨h, h2⟩
  · exact ⟨h, h2⟩

theorem sleep_phase_no_read (inp : Inputs) (s : State) (i : Nat) :
    Event.rfm_framebuf_read i ∉ (sleep_phase inp s).2 := by
  unfold sleep_phase
  split_ifs <;> simp

theorem kb_branch_no_read (k : Consts) (s : State) (i : Nat) :
    Event.rfm_framebuf_read i ∉ (kb_branch k s).2 := by
  rcases kb_branch_events k s with h | h <;> simp [h]

theorem menu_branch_no_read (inp : Inputs) (s : State) (i : Nat) :
    Event.rfm_framebuf_read i ∉ (menu_branch inp s).2 := by
  unfold menu_branch
  split_ifs <;> simp

theorem rtc_branch_no_read (k : Consts) (inp : Inputs) (s : State) (i : Nat) :
    Event.rfm_framebuf_read i ∉ (rtc_branch k inp s).2 := by
  unfold rtc_branch rfm_broadcast weekly_recalibration
  split_ifs <;> simp

theorem restart_events_no_read {inp : Inputs} {evs : List Event}
    (h : evs ∈ restart_events inp) (i : Nat) : Event.rfm_framebuf_read i ∉ evs := by
  simp only [restart_events, List.mem_cons, List.mem_singleton, List.not_mem_nil, or_false] at h
  rcases h with h | h | h | h | h <;> simp [h]

/-- The only read of `rfm_framebuf` by the transmitter in a pass is at the cursor,
and only while the cursor is below the length. -/
theorem main_iteration_read (k : Consts) (inp : Inputs) (s : State) (i : Nat)
    (h : Event.rfm_framebuf_read i ∈ (main_iteration k inp s).2) :
    i = s.rfm_framepos ∧ s.rfm_framepos < s.rfm_framesize := by
  simp only [main_iteration, List.mem_append, sleep_phase_no_read, false_or] at h
  have hr := (radio_eq_iff _ _).mp (sleep_phase_radio inp s)
  rcases dispatch_restart_or_late k inp (sleep_phase inp s).1 with ⟨m, evs, hd, hev, _⟩ | ⟨hd, _⟩
  · rw [hd] at h
    exact absurd h (restart_events_no_read hev i)
  · rw [hd] at h
    simp only [late_branches, List.mem_append, kb_branch_no_read, rtc_branch_no_read,
      menu_branch_no_read, false_or, or_false] at h
    have h2 := rfm_branch_read k _ i h
    have hk := (radio_eq_iff _ _).mp (kb_branch_radio k (sleep_phase inp s).1)
    rw [hk.2.2.1, hk.2.1, hr.2.2.1, hr.2.1] at h2
    exact h2

theorem exec_reads_in_bounds (k : Consts) (steps : List Step) (s : State) (hs : FrameInv s) :
    ∀ i, Event.rfm_framebuf_read i ∈ (exec k steps s).2 → i < 14 := by
  induction steps generalizing s with
  | nil => intro i h; simp [exec] at h
  | cons st rest ih =>
    intro i h
    simp only [exec, List.mem_append] at h
    rcases h with h | h
    · cases st with
      | env flags adc timeout => simp [step] at h
      | cycle inp =>
        have := main_iteration_read k inp s i h
        unfold FrameInv at hs
        omega
    · exact ih _ (step_frameInv k st s hs) i h

/-- C8: in every state reached from cursor 0 and length 0 (the idle radio, in any
mode) by any run of loop passes and environment steps, `rfm_framesize ≤ 14` and
`rfm_framepos ≤ rfm_framesize`; every read of `rfm_framebuf` by the transmitter
during the run is at an index below 14, and a read in the next pass is at an
index strictly below the current `rfm_framesize`. -/
theorem C8_frame_bounds (k : Consts) (steps : List Step) (s0 : State)
    (hpos : s0.rfm_framepos = 0) (hsize : s0.rfm_framesize = 0) :
    (exec k steps s0).1.rfm_framesize ≤ 14
      ∧ (exec k steps s0).1.rfm_framepos ≤ (exec k steps s0).1.rfm_framesize
      ∧ (∀ i, Event.rfm_framebuf_read i ∈ (exec k steps s0).2 → i < 14)
      ∧ (∀ inp i, Event.rfm_framebuf_read i ∈ (main_iteration k inp (exec k steps s0).1).2 →
          i < (exec k steps s0).1.rfm_framesize) := by
  have h0 : FrameInv s0 := by
    unfold FrameInv
    omega
  have hinv := exec_frameInv k steps s0 h0
  refine ⟨hinv.1, hinv.2, exec_reads_in_bounds k steps s0 h0, ?_⟩
  intro inp i h
  have := main_iteration_read k inp _ i h
  omega

/-- C7 (amended): in every state reached from cursor 0 and length 0 in which a
transmission is under way (mode transmitting, cursor below length), a pass that
does not assemble a new broadcast leaves `rfm_framebuf` unchanged and either keeps
the mode and `rfm_framesize` and does not decrease `rfm_framepos`, or completes
the transmission of the last byte (mode off, cursor and length reset to 0). -/
theorem C7_frame_stable_without_reassembly (k : Consts) (steps : List Step) (s0 : State)
    (inp : Inputs) (hpos : s0.rfm_framepos = 0) (hsize : s0.rfm_framesize = 0)
    (htx : (exec k steps s0).1.rfm_mode = RfmMode.rfmmode_txd)
    (hlt : (exec k steps s0).1.rfm_framepos < (exec k steps s0).1.rfm_framesize)
    (hno : Event.RFM_TX_ON ∉ (main_iteration k inp (exec k steps s0).1).2) :
    (main_iteration k inp (exec k steps s0).1).1.rfm_framebuf
        = (exec k steps s0).1.rfm_framebuf
      ∧ (((main_iteration k inp (exec k steps s0).1).1.rfm_mode = RfmMode.rfmmode_txd
          ∧ (main_iteration k inp (exec k steps s0).1).1.rfm_framesize
              = (exec k steps s0).1.rfm_framesize
          ∧ (exec k steps s0).1.rfm_framepos
              ≤ (main_iteration k inp (exec k steps s0).1).1.rfm_framepos
          ∧ (main_iteration k inp (exec k steps s0).1).1.rfm_framepos
              < (main_iteration k inp (exec k steps s0).1).1.rfm_framesize)
        ∨ ((exec k steps s0).1.rfm_framepos + 1 = (exec k steps s0).1.rfm_framesize
          ∧ (main_iteration k inp (exec k steps s0).1).1.rfm_mode = RfmMode.rfmmode_off
          ∧ (main_iteration k inp (exec k steps s0).1).1.rfm_framepos = 0
          ∧ (main_iteration k inp (exec k steps s0).1).1.rfm_framesize = 0)) := by
  have h0 : FrameInv s0 := by
    unfold FrameInv
    omega
  have hinv := exec_frameInv k steps s0 h0
  have hstep := main_iteration_radio_step k inp _ hno
  generalize (exec k steps s0).1 = s at *
  generalize (main_iteration k inp s).1 = t at *
  unfold FrameInv at hinv
  unfold RadioStep State.radio at hstep
  simp only [Prod.mk.injEq] at hstep
  have hmod : (s.rfm_framepos + 1) % 256 = s.rfm_framepos + 1 := Nat.mod_eq_of_lt (by omega)
  rcases hstep with h | ⟨-, -, hne, h⟩ | ⟨-, hc, h⟩
  · refine ⟨h.1, Or.inl ⟨?_, h.2.1, ?_, ?_⟩⟩
    · rw [h.2.2.2]; exact htx
    · rw [h.2.2.1]
    · rw [h.2.2.1, h.2.1]; exact hlt
  · refine ⟨h.1, Or.inl ⟨h.2.2.2, h.2.1, ?_, ?_⟩⟩
    · rw [h.2.2.1]; omega
    · rw [h.2.2.1, h.2.1]; omega
  · refine ⟨h.1, Or.inr ⟨?_, h.2.2.2, h.2.2.1, h.2.1⟩⟩
    rcases hc with hc | hc
    · omega
    · omega

/-! ## A radio flag pending while the radio is not transmitting -/

theorem kb_branch_task_rfm {k : Consts} (hk : k.WF) (s : State)
    (h : s.task &&& k.TASK_RFM ≠ 0) : (kb_branch k s).1.task &&& k.TASK_RFM ≠ 0 := by
  unfold kb_branch
  split_ifs
  · simp only
    rw [andNot8_and_of_disjoint hk.rfm_lt hk.rfm_disjoint.2.2.2.2.2.1]
    exact h
  · exact h

theorem rfm_branch_of_not_txd (k : Consts) (s : State) (h : s.rfm_mode ≠ RfmMode.rfmmode_txd) :
    rfm_branch k s = (s, []) := by
  rw [rfm_branch_eq, if_neg (fun hc => h hc.2)]

theorem rtc_branch_task_rfm {k : Consts} (hk : k.WF) (inp : Inputs) (s : State)
    (h : s.task &&& k.TASK_RFM ≠ 0) : (rtc_branch k inp s).1.task &&& k.TASK_RFM ≠ 0 := by
  unfold rtc_branch rfm_broadcast
  split_ifs
  · exact or8_and_self_ne_zero _ hk.rfm_lt hk.rfm_pos
  · simp only
    rw [andNot8_and_of_disjoint hk.rfm_lt hk.rfm_disjoint.2.2.2.2.2.2]
    exact h
  · exact h

theorem rtc_branch_radio_events (k : Consts) (inp : Inputs) (s : State)
    (h : Event.RFM_TX_ON ∉ (rtc_branch k inp s).2) :
    ∀ e ∈ (rtc_branch k inp s).2, is_radio_event e = false := by
  unfold rtc_branch rfm_broadcast weekly_recalibration at h ⊢
  split_ifs at h ⊢ <;> simp_all [is_radio_event]

theorem menu_branch_radio_events (inp : Inputs) (s : State) :
    ∀ e ∈ (menu_branch inp s).2, is_radio_event e = false := by
  unfold menu_branch
  split_ifs <;> simp [is_radio_event]

theorem kb_branch_radio_events (k : Consts) (s : State) :
    ∀ e ∈ (kb_branch k s).2, is_radio_event e = false := by
  rcases kb_branch_events k s with h | h <;> simp [h, is_radio_event]

theorem restart_events_radio_events {inp : Inputs} {evs : List Event}
    (h : evs ∈ restart_events inp) : ∀ e ∈ evs, is_radio_event e = false := by
  simp only [restart_events, List.mem_cons, List.mem_singleton, List.not_mem_nil, or_false] at h
  rcases h with h | h | h | h | h <;> simp [h, is_radio_event]

theorem restartMasks_rfm_disjoint {k : Consts} (hk : k.WF) {m : Nat} (hm : m ∈ k.restartMasks) :
    m &&& k.TASK_RFM = 0 := by
  have hd := hk.rfm_disjoint
  simp only [Consts.restartMasks, List.mem_cons, List.mem_singleton, List.not_mem_nil,
    or_false] at hm
  rcases hm with h | h | h | h | h <;> rw [h]
  · exact hd.1
  · exact hd.2.1
  · exact hd.2.2.1
  · exact hd.2.2.2.1
  · exact hd.2.2.2.2.1

/-- One pass from a state with the radio flag pending and the radio not
transmitting. -/
theorem main_iteration_rfm_idle {k : Consts} (hk : k.WF) (inp : Inputs) (s : State)
    (hrfm : s.task &&& k.TASK_RFM ≠ 0) (hmode : s.rfm_mode ≠ RfmMode.rfmmode_txd) :
    (main_iteration k inp s).1.task &&& k.TASK_RFM ≠ 0
      ∧ sleep_events (main_iteration k inp s).2 = []
      ∧ (Event.RFM_TX_ON ∉ (main_iteration k inp s).2 →
          (main_iteration k inp s).1.radio = s.radio
            ∧ ∀ e ∈ (main_iteration k inp s).2, is_radio_event e = false) := by
  have hne : s.task ≠ 0 := and_ne_zero_imp_ne_zero hrfm
  simp only [main_iteration, sleep_phase_of_pending inp s hne, sleep_events_append,
    dispatch_sleep_events, List.append_nil]
  refine ⟨?_, by simp [sleep_events], ?_⟩
  · rcases dispatch_restart_or_late k inp s with ⟨m, evs, hd, _, _, hm⟩ | ⟨hd, _⟩
    · rw [hd]
      simp only
      rw [andNot8_and_of_disjoint hk.rfm_lt (restartMasks_rfm_disjoint hk hm)]
      exact hrfm
    · rw [hd]
      have h1 := kb_branch_task_rfm hk s hrfm
      have hm1 : (kb_branch k s).1.rfm_mode ≠ RfmMode.rfmmode_txd := by
        rw [((radio_eq_iff _ _).mp (kb_branch_radio k s)).2.2.2]
        exact hmode
      simp only [late_branches, menu_branch_state, rfm_branch_of_not_txd k _ hm1]
      exact rtc_branch_task_rfm hk inp _ h1
  · intro hno
    simp only [List.mem_append, List.mem_cons, List.mem_singleton, List.not_mem_nil, or_false,
      false_or, reduceCtorEq, not_or] at hno
    rcases dispatch_restart_or_late k inp s with ⟨m, evs, hd, hev, _, hm⟩ | ⟨hd, _⟩
    · rw [hd]
      refine ⟨rfl, ?_⟩
      intro e he
      simp only [List.mem_append, List.mem_cons, List.mem_singleton, List.not_mem_nil,
        or_false] at he
      rcases he with (he | he) | he
      · rw [he]; rfl
      · rw [he]; rfl
      · exact restart_events_radio_events hev e he
    · rw [hd] at hno ⊢
      have hm1 : (kb_branch k s).1.rfm_mode ≠ RfmMode.rfmmode_txd := by
        rw [((radio_eq_iff _ _).mp (kb_branch_radio k s)).2.2.2]
        exact hmode
      have hno2 : Event.RFM_TX_ON ∉ (late_branches k inp s).2 := hno
      refine ⟨?_, ?_⟩
      · rw [late_branches_radio, if_neg hno2, rfm_branch_of_not_txd k _ hm1]
        exact kb_branch_radio k s
      · have hno3 : Event.RFM_TX_ON ∉ (rtc_branch k inp (kb_branch k s).1).2 := by
          intro hc
          apply hno2
          simp only [late_branches, rfm_branch_of_not_txd k _ hm1, List.mem_append]
          exact Or.inl (Or.inr hc)
        intro e he
        simp only [late_branches, rfm_branch_of_not_txd k _ hm1, List.mem_append,
          List.mem_cons, List.mem_singleton, List.not_mem_nil, or_false] at he
        rcases he with (he | he) | (he | he) | he
        · rw [he]; rfl
        · rw [he]; rfl
        · exact kb_branch_radio_events k s e he
        · exact rtc_branch_radio_events k inp _ hno3 e he
        · exact menu_branch_radio_events inp _ e he

theorem exec_rfm_idle {k : Consts} (hk : k.WF) (steps : List Step) (s : State)
    (hrfm : s.task &&& k.TASK_RFM ≠ 0) (hmode : s.rfm_mode ≠ RfmMode.rfmmode_txd)
    (hno : Event.RFM_TX_ON ∉ (exec k steps s).2) :
    (exec k steps s).1.task &&& k.TASK_RFM ≠ 0
      ∧ (exec k steps s).1.radio = s.radio
      ∧ sleep_events (exec k steps s).2 = []
      ∧ ∀ e ∈ (exec k steps s).2, is_radio_event e = false := by
  induction steps generalizing s with
  | nil => exact ⟨hrfm, rfl, rfl, by simp [exec]⟩
  | cons st rest ih =>
    simp only [exec, List.mem_append, not_or] at hno ⊢
    cases st with
    | env flags adc timeout =>
      have h1 : (env_step flags adc timeout s).task &&& k.TASK_RFM ≠ 0 :=
        or8_and_ne_zero flags hk.rfm_lt hrfm
      have := ih (env_step flags adc timeout s) h1 hmode hno.2
      simp only [step, List.nil_append, List.not_mem_nil, false_or]
      exact ⟨this.1, this.2.1, this.2.2.1, this.2.2.2⟩
    | cycle inp =>
      have h1 := main_iteration_rfm_idle hk inp s hrfm hmode
      have h2 := h1.2.2 hno.1
      have hm : (main_iteration k inp s).1.rfm_mode ≠ RfmMode.rfmmode_txd := by
        rw [((radio_eq_iff _ _).mp h2.1).2.2.2]
        exact hmode
      have := ih (main_iteration k inp s).1 h1.1 hm hno.2
      simp only [step, sleep_events_append, h1.2.1, List.nil_append]
      refine ⟨this.1, this.2.1.trans h2.1, this.2.2.1, ?_⟩
      intro e he
      rcases he with he | he
      · exact h2.2 e he
      · exact this.2.2.2 e he

/-- C10 (amended): from a state with `TASK_RFM` pending while the radio is not
transmitting, every pass leaves `TASK_RFM` pending and does not sleep; and as long
as no pass assembles a broadcast (issues `RFM_TX_ON`), any run of passes and
environment steps leaves `TASK_RFM` pending, leaves buffer, length, cursor and
mode unchanged, never sleeps and issues no radio event. -/
theorem C10_idle_radio_flag_persists (k : Consts) (hk : k.WF) (s : State)
    (hrfm : s.task &&& k.TASK_RFM ≠ 0) (hmode : s.rfm_mode ≠ RfmMode.rfmmode_txd) :
    (∀ inp, (main_iteration k inp s).1.task &&& k.TASK_RFM ≠ 0
        ∧ (main_iteration k inp s).1.task ≠ 0
        ∧ sleep_events (main_iteration k inp s).2 = [])
      ∧ (∀ steps, Event.RFM_TX_ON ∉ (exec k steps s).2 →
          (exec k steps s).1.task &&& k.TASK_RFM ≠ 0
            ∧ (exec k steps s).1.task ≠ 0
            ∧ (exec k steps s).1.radio = s.radio
            ∧ sleep_events (exec k steps s).2 = []
            ∧ ∀ e ∈ (exec k steps s).2, is_radio_event e = false) := by
  constructor
  · intro inp
    have h := main_iteration_rfm_idle hk inp s hrfm hmode
    exact ⟨h.1, and_ne_zero_imp_ne_zero h.1, h.2.1⟩
  · intro steps hno
    have h := exec_rfm_idle hk steps s hrfm hmode hno
    exact ⟨h.1, and_ne_zero_imp_ne_zero h.1, h.2.1, h.2.2.1, h.2.2.2⟩

/-! ## Transmission of a frame -/

theorem rfm_writes_append (a b : List Event) :
    rfm_writes (a ++ b) = rfm_writes a ++ rfm_writes b := by
  simp [rfm_writes, List.filterMap_append]

theorem radio_events_append (a b : List Event) :
    radio_events (a ++ b) = radio_events a ++ radio_events b := by
  simp [radio_events, List.filter_append]

theorem radio_events_eq_nil {evs : List Event} (h : ∀ e ∈ evs, is_radio_event e = false) :
    radio_events evs = [] := by
  unfold radio_events
  rw [List.filter_eq_nil_iff]
  intro e he
  simp [h e he]

/-- Every value passed to `RFM_WRITE` belongs to a radio event. -/
theorem rfm_writes_radio_events (evs : List Event) :
    rfm_writes (radio_events evs) = rfm_writes evs := by
  induction evs with
  | nil => rfl
  | cons e rest ih =>
    unfold radio_events rfm_writes at *
    cases e <;> simp [List.filter_cons, is_radio_event, ih]

theorem rfm_writes_tx_events (buf : List Nat) (start n : Nat) :
    rfm_writes (tx_events buf start n) = (List.range' start n).map (fun i => buf.getD i 0) := by
  induction n generalizing start with
  | zero => rfl
  | succ n ih =>
    rw [tx_events, rfm_writes_append, ih, List.range'_succ, List.map_cons]
    simp [tx_block, rfm_writes]

theorem map_getD_range' (buf : List Nat) (n : Nat) (h : n ≤ buf.length) :
    (List.range' 0 n).map (fun i => buf.getD i 0) = buf.take n := by
  apply List.ext_getElem
  · simp [h]
  · intro i h1 h2
    simp only [List.length_map, List.length_range'] at h1
    simp [List.getD_eq_getElem?_getD, List.getElem?_eq_getElem (show i < buf.length by omega)]

theorem sleep_phase_radio_events (inp : Inputs) (s : State) :
    radio_events (sleep_phase inp s).2 = [] := by
  unfold sleep_phase
  split_ifs <;> simp [radio_events, is_radio_event]

theorem reaches_late_branches_iff (k : Consts) (inp : Inputs) (s : State) :
    reaches_late_branches k inp s = true ↔
      ∀ m ∈ k.restartMasks, (sleep_phase inp s).1.task &&& m = 0 := by
  simp [reaches_late_branches, List.all_eq_true]

theorem dispatch_late_of_clear (k : Consts) (inp : Inputs) (s : State)
    (h : ∀ m ∈ k.restartMasks, s.task &&& m = 0) : dispatch k inp s = late_branches k inp s := by
  rcases dispatch_restart_or_late k inp s with ⟨m, evs, _, _, hne, hm⟩ | ⟨hd, _⟩
  · exact absurd (h m hm) hne
  · exact hd

/-- A pass that handles no clock tick and gets past the restarting branches is the
keyboard branch followed by the radio branch, as far as the state and the radio
events go. -/
theorem main_iteration_late_no_tick (k : Consts) (inp : Inputs) (s : State)
    (hlate : reaches_late_branches k inp s = true)
    (hno : Event.RTC_AddOneSecond ∉ (main_iteration k inp s).2) :
    (main_iteration k inp s).1 = (rfm_branch k (kb_branch k (sleep_phase inp s).1).1).1
      ∧ radio_events (main_iteration k inp s).2
          = radio_events (rfm_branch k (kb_branch k (sleep_phase inp s).1).1).2 := by
  have hclear := (reaches_late_branches_iff k inp s).mp hlate
  have hd := dispatch_late_of_clear k inp (sleep_phase inp s).1 hclear
  simp only [main_iteration, hd, List.mem_append, sleep_phase_no_tick, false_or] at hno ⊢
  have hrtc : (rfm_branch k (kb_branch k (sleep_phase inp s).1).1).1.task &&& k.TASK_RTC = 0 := by
    by_contra hc
    exact hno ((late_branches_tick k inp _).mpr hc)
  simp only [late_branches, menu_branch_state, rtc_branch_of_not_pending k inp _ hrtc,
    radio_events_append, sleep_phase_radio_events, List.append_nil, List.nil_append,
    radio_events_eq_nil (kb_branch_radio_events k _),
    radio_events_eq_nil (menu_branch_radio_events inp _)]
  exact ⟨trivial, trivial⟩

/-- A pass that runs one of the restarting branches changes the task register
only and issues no radio event. -/
theorem main_iteration_restart (k : Consts) (inp : Inputs) (s : State)
    (hlate : reaches_late_branches k inp s = false) :
    ∃ m ∈ k.restartMasks,
      (main_iteration k inp s).1
          = { (sleep_phase inp s).1 with task := andNot8 (sleep_phase inp s).1.task m }
        ∧ radio_events (main_iteration k inp s).2 = []
        ∧ Event.RTC_AddOneSecond ∉ (main_iteration k inp s).2 := by
  rcases dispatch_restart_or_late k inp (sleep_phase inp s).1 with
    ⟨m, evs, hd, hev, _, hm⟩ | ⟨_, h1, h2, h3, h4, h5⟩
  · refine ⟨m, hm, ?_, ?_, ?_⟩
    · simp only [main_iteration, hd]
    · simp only [main_iteration, hd, radio_events_append, sleep_phase_radio_events,
        radio_events_eq_nil (restart_events_radio_events hev), List.append_nil]
    · simp only [main_iteration, hd, List.mem_append, sleep_phase_no_tick, false_or]
      exact restart_events_no_tick hev
  · exfalso
    have : reaches_late_branches k inp s = true := by
      rw [reaches_late_branches_iff]
      intro m hm
      simp only [Consts.restartMasks, List.mem_cons, List.mem_singleton, List.not_mem_nil,
        or_false] at hm
      rcases hm with h | h | h | h | h <;> rw [h] <;> assumption
    rw [this] at hlate
    exact Bool.noConfusion hlate

/-- A handled clock tick is the only source of `RFM_TX_ON`. -/
theorem tick_of_tx_on (k : Consts) (inp : Inputs) (s : State)
    (h : Event.RFM_TX_ON ∈ (main_iteration k inp s).2) :
    Event.RTC_AddOneSecond ∈ (main_iteration k inp s).2 := by
  simp only [main_iteration, List.mem_append, sleep_phase_no_tx_on, false_or] at h
  simp only [main_iteration, List.mem_append]
  right
  rcases dispatch_restart_or_late k inp (sleep_phase inp s).1 with ⟨m, evs, hd, hev, _⟩ | ⟨hd, _⟩
  · rw [hd] at h
    exact absurd h (restart_events_no_tx_on hev)
  · rw [hd] at h ⊢
    exact (late_branches_tick k inp _).mpr ((late_branches_tx_on k inp _).mp h).1

/-- While the radio is not transmitting, a pass that handles no clock tick leaves
the radio state alone and issues no radio event. -/
theorem main_iteration_idle_no_tick (k : Consts) (inp : Inputs) (s : State)
    (hmode : s.rfm_mode ≠ RfmMode.rfmmode_txd)
    (hno : Event.RTC_AddOneSecond ∉ (main_iteration k inp s).2) :
    (main_iteration k inp s).1.radio = s.radio
      ∧ radio_events (main_iteration k inp s).2 = [] := by
  have hsl := (radio_eq_iff _ _).mp (sleep_phase_radio inp s)
  cases hl : reaches_late_branches k inp s
  · obtain ⟨m, _, hst, hev, _⟩ := main_iteration_restart k inp s hl
    refine ⟨?_, hev⟩
    rw [hst]
    exact sleep_phase_radio inp s
  · have h := main_iteration_late_no_tick k inp s hl hno
    have hkb := (radio_eq_iff _ _).mp (kb_branch_radio k (sleep_phase inp s).1)
    have hm1 : (kb_branch k (sleep_phase inp s).1).1.rfm_mode ≠ RfmMode.rfmmode_txd := by
      rw [hkb.2.2.2, hsl.2.2.2]
      exact hmode
    rw [h.1, h.2, rfm_branch_of_not_txd k _ hm1]
    exact ⟨(kb_branch_radio k _).trans (sleep_phase_radio inp s), rfl⟩

theorem exec_idle_no_tick (k : Consts) (steps : List Step) (s : State)
    (hmode : s.rfm_mode ≠ RfmMode.rfmmode_txd)
    (hno : Event.RTC_AddOneSecond ∉ (exec k steps s).2) :
    (exec k steps s).1.radio = s.radio ∧ radio_events (exec k steps s).2 = [] := by
  induction steps generalizing s with
  | nil => exact ⟨rfl, rfl⟩
  | cons st rest ih =>
    simp only [exec, List.mem_append, not_or] at hno ⊢
    cases st with
    | env flags adc timeout =>
      have := ih (env_step flags adc timeout s) hmode hno.2
      simp only [step, List.nil_append]
      exact this
    | cycle inp =>
      have h1 := main_iteration_idle_no_tick k inp s hmode hno.1
      have hm : (main_iteration k inp s).1.rfm_mode ≠ RfmMode.rfmmode_txd := by
        rw [((radio_eq_iff _ _).mp h1.1).2.2.2]
        exact hmode
      have h2 := ih (main_iteration k inp s).1 hm hno.2
      simp only [step, radio_events_append, h1.2, h2.2, List.append_nil]
      exact ⟨h2.1.trans h1.1, trivial⟩

/-- One pass of a transmission that handles no clock tick: a restarting pass
leaves the transmission as it is; any other pass sends the byte under the cursor
and, when the cursor reaches the length, shuts the transmitter down. -/
theorem main_iteration_tx_no_tick {k : Consts} (hk : k.WF) (inp : Inputs) (s : State)
    (hmode : s.rfm_mode = RfmMode.rfmmode_txd) (hrfm : s.task &&& k.TASK_RFM ≠ 0)
    (hsz : s.rfm_framesize ≤ 255)
    (hno : Event.RTC_AddOneSecond ∉ (main_iteration k inp s).2) :
    (main_iteration k inp s).1.rfm_framebuf = s.rfm_framebuf
      ∧ (reaches_late_branches k inp s = false →
          (main_iteration k inp s).1.radio = s.radio
            ∧ (main_iteration k inp s).1.task &&& k.TASK_RFM ≠ 0
            ∧ radio_events (main_iteration k inp s).2 = [])
      ∧ (reaches_late_branches k inp s = true → s.rfm_framepos + 1 < s.rfm_framesize →
          (main_iteration k inp s).1.rfm_mode = RfmMode.rfmmode_txd
            ∧ (main_iteration k inp s).1.task &&& k.TASK_RFM ≠ 0
            ∧ (main_iteration k inp s).1.rfm_framepos = s.rfm_framepos + 1
            ∧ (main_iteration k inp s).1.rfm_framesize = s.rfm_framesize
            ∧ radio_events (main_iteration k inp s).2 = tx_block s.rfm_framebuf s.rfm_framepos)
      ∧ (reaches_late_branches k inp s = true →
          (s.rfm_framepos + 1 = s.rfm_framesize ∨ s.rfm_framepos = s.rfm_framesize) →
          (main_iteration k inp s).1.rfm_mode = RfmMode.rfmmode_off
            ∧ (main_iteration k inp s).1.task &&& k.TASK_RFM = 0
            ∧ (main_iteration k inp s).1.rfm_framepos = 0
            ∧ (main_iteration k inp s).1.rfm_framesize = 0
            ∧ radio_events (main_iteration k inp s).2 =
                tx_events s.rfm_framebuf s.rfm_framepos (s.rfm_framesize - s.rfm_framepos)
                  ++ [Event.RFM_OFF, Event.RFM_WRITE 0]) := by
  have hne : s.task ≠ 0 := and_ne_zero_imp_ne_zero hrfm
  have hsl : (sleep_phase inp s).1 = s := by rw [sleep_phase_of_pending inp s hne]
  have hr := (radio_eq_iff _ _).mp (kb_branch_radio k s)
  have hkr := kb_branch_task_rfm hk s hrfm
  refine ⟨?_, ?_, ?_, ?_⟩
  · cases hl : reaches_late_branches k inp s
    · obtain ⟨m, _, hst, _, _⟩ := main_iteration_restart k inp s hl
      rw [hst, hsl]
    · rw [(main_iteration_late_no_tick k inp s hl hno).1, hsl, rfm_branch_framebuf, hr.1]
  · intro hl
    obtain ⟨m, hm, hst, hev, _⟩ := main_iteration_restart k inp s hl
    rw [hst, hsl]
    refine ⟨rfl, ?_, hev⟩
    simp only
    rw [andNot8_and_of_disjoint hk.rfm_lt (restartMasks_rfm_disjoint hk hm)]
    exact hrfm
  · intro hl hlt
    have h := main_iteration_late_no_tick k inp s hl hno
    rw [h.1, h.2, hsl, rfm_branch_eq, if_pos ⟨hkr, hr.2.2.2.trans hmode⟩, hr.2.1, hr.2.2.1, hr.1]
    have hmod : (s.rfm_framepos + 1) % 256 = s.rfm_framepos + 1 := Nat.mod_eq_of_lt (by omega)
    rw [if_pos (by omega), if_neg (by omega), hmod]
    refine ⟨hr.2.2.2.trans hmode, hkr, rfl, rfl, ?_⟩
    simp [radio_events, is_radio_event, tx_block]
  · intro hl hlast
    have h := main_iteration_late_no_tick k inp s hl hno
    rw [h.1, h.2, hsl, rfm_branch_eq, if_pos ⟨hkr, hr.2.2.2.trans hmode⟩, hr.2.1, hr.2.2.1, hr.1]
    rcases hlast with hlast | hlast
    · have hmod : (s.rfm_framepos + 1) % 256 = s.rfm_framepos + 1 :=
        Nat.mod_eq_of_lt (by omega)
      have hone : s.rfm_framesize - s.rfm_framepos = 1 := by omega
      rw [if_pos (by omega), if_pos (by omega), hone]
      refine ⟨rfl, andNot8_and_self _ _, rfl, rfl, ?_⟩
      simp [radio_events, is_radio_event, tx_events, tx_block]
    · have hzero : s.rfm_framesize - s.rfm_framepos = 0 := by omega
      rw [if_neg (by omega), if_pos hlast, hzero]
      refine ⟨rfl, andNot8_and_self _ _, rfl, rfl, ?_⟩
      simp [radio_events, is_radio_event, tx_events]

/-- Any run of a transmission in which no clock tick is handled: until enough
passes have got past the restarting branches the cursor counts them and the radio
events are the bytes sent so far; from then on the transmitter is shut down and
the radio events are those of the whole frame followed by the shutdown. -/
theorem exec_tx_no_tick {k : Consts} (hk : k.WF) (steps : List Step) (s : State)
    (hmode : s.rfm_mode = RfmMode.rfmmode_txd) (hrfm : s.task &&& k.TASK_RFM ≠ 0)
    (hle : s.rfm_framepos ≤ s.rfm_framesize) (hsz : s.rfm_framesize ≤ 255)
    (hno : Event.RTC_AddOneSecond ∉ (exec k steps s).2) :
    (radio_passes k steps s < max (s.rfm_framesize - s.rfm_framepos) 1 →
        (exec k steps s).1.rfm_mode = RfmMode.rfmmode_txd
          ∧ (exec k steps s).1.task &&& k.TASK_RFM ≠ 0
          ∧ (exec k steps s).1.rfm_framepos = s.rfm_framepos + radio_passes k steps s
          ∧ (exec k steps s).1.rfm_framesize = s.rfm_framesize
          ∧ (exec k steps s).1.rfm_framebuf = s.rfm_framebuf
          ∧ radio_events (exec k steps s).2
              = tx_events s.rfm_framebuf s.rfm_framepos (radio_passes k steps s))
      ∧ (max (s.rfm_framesize - s.rfm_framepos) 1 ≤ radio_passes k steps s →
        (exec k steps s).1.rfm_mode = RfmMode.rfmmode_off
          ∧ (exec k steps s).1.rfm_framepos = 0
          ∧ (exec k steps s).1.rfm_framesize = 0
          ∧ (exec k steps s).1.rfm_framebuf = s.rfm_framebuf
          ∧ radio_events (exec k steps s).2
              = tx_events s.rfm_framebuf s.rfm_framepos (s.rfm_framesize - s.rfm_framepos)
                  ++ [Event.RFM_OFF, Event.RFM_WRITE 0]) := by
  induction steps generalizing s with
  | nil =>
    refine ⟨fun _ => ⟨hmode, hrfm, rfl, rfl, rfl, rfl⟩, ?_⟩
    intro h
    simp only [radio_passes] at h
    omega
  | cons st rest ih =>
    simp only [exec, List.mem_append, not_or] at hno
    cases st with
    | env flags adc timeout =>
      have h1 : (env_step flags adc timeout s).task &&& k.TASK_RFM ≠ 0 :=
        or8_and_ne_zero flags hk.rfm_lt hrfm
      have := ih (env_step flags adc timeout s) hmode h1 hle hsz hno.2
      simpa only [exec, step, radio_passes, List.nil_append] using this
    | cycle inp =>
      have hp := main_iteration_tx_no_tick hk inp s hmode hrfm hsz hno.1
      simp only [exec, step, radio_passes, radio_events_append]
      simp only [step] at hno
      cases hl : reaches_late_branches k inp s
      · obtain ⟨hrad, htask, hev⟩ := hp.2.1 hl
        have hr := (radio_eq_iff _ _).mp hrad
        have := ih (main_iteration k inp s).1 (hr.2.2.2.trans hmode) htask
          (by rw [hr.2.2.1, hr.2.1]; exact hle) (by rw [hr.2.1]; exact hsz) hno.2
        rw [hr.2.1, hr.2.2.1, hr.1] at this
        simpa only [hev, List.nil_append, Bool.false_eq_true, if_false, Nat.zero_add] using this
      · simp only [if_true]
        by_cases hadv : s.rfm_framepos + 1 < s.rfm_framesize
        · obtain ⟨hm1, ht1, hp1, hs1, hev⟩ := hp.2.2.1 hl hadv
          have := ih (main_iteration k inp s).1 hm1 ht1 (by rw [hp1, hs1]; omega)
            (by rw [hs1]; exact hsz) hno.2
          rw [hp1, hs1, hp.1] at this
          constructor
          · intro hlt
            obtain ⟨a, b, c, d, e, f⟩ := this.1 (by omega)
            refine ⟨a, b, by rw [c]; omega, d, e, ?_⟩
            rw [hev, f, Nat.add_comm 1, tx_events]
          · intro hge
            obtain ⟨a, b, c, d, e⟩ := this.2 (by omega)
            refine ⟨a, b, c, d, ?_⟩
            rw [hev, e]
            have hsub : s.rfm_framesize - s.rfm_framepos
                = (s.rfm_framesize - (s.rfm_framepos + 1)) + 1 := by omega
            rw [hsub, tx_events, List.append_assoc]
        · obtain ⟨hm1, _, hp1, hs1, hev⟩ := hp.2.2.2 hl (by omega)
          have hoff : (main_iteration k inp s).1.rfm_mode ≠ RfmMode.rfmmode_txd := by
            rw [hm1]
            exact fun h => RfmMode.noConfusion h
          have hidle := exec_idle_no_tick k rest (main_iteration k inp s).1 hoff hno.2
          have hr := (radio_eq_iff _ _).mp hidle.1
          constructor
          · intro hlt
            omega
          · intro _
            refine ⟨hr.2.2.2.trans hm1, hr.2.2.1.trans hp1, hr.2.1.trans hs1,
              hr.1.trans hp.1, ?_⟩
            rw [hev, hidle.2, List.append_nil]

/-- C4 (amended): starting from mode transmitting with cursor 0, length `L` (a byte
value within the buffer) and `TASK_RFM` pending, over any run of passes and raised
flags in which no clock tick is handled: as long as fewer than `max L 1` passes
have got past the restarting branches, the cursor equals the number `n` of such
passes, `TASK_RFM` is still pending, the frame is unchanged and the radio events
are exactly the shift-outs of `rfm_framebuf[0..n-1]` in order, one per such pass
(`RFM_WRITE` received exactly these bytes); the pass that completes the count
clears `TASK_RFM`, resets cursor and length to 0 and sets the mode to off; and from
then on the radio events are the shift-outs of all `L` bytes followed by `RFM_OFF`
and `RFM_WRITE 0`, so `RFM_WRITE` received the `L` frame bytes followed by 0. -/
theorem C4_transmit_frame (k : Consts) (hk : k.WF) (s : State) (steps : List Step)
    (hmode : s.rfm_mode = RfmMode.rfmmode_txd) (hrfm : s.task &&& k.TASK_RFM ≠ 0)
    (hpos : s.rfm_framepos = 0) (hsz : s.rfm_framesize ≤ 255)
    (hcap : s.rfm_framesize ≤ s.rfm_framebuf.length)
    (hno : Event.RTC_AddOneSecond ∉ (exec k steps s).2) :
    (radio_passes k steps s < max s.rfm_framesize 1 →
        (exec k steps s).1.rfm_mode = RfmMode.rfmmode_txd
          ∧ (exec k steps s).1.task &&& k.TASK_RFM ≠ 0
          ∧ (exec k steps s).1.rfm_framepos = radio_passes k steps s
          ∧ (exec k steps s).1.rfm_framesize = s.rfm_framesize
          ∧ (exec k steps s).1.rfm_framebuf = s.rfm_framebuf
          ∧ radio_events (exec k steps s).2
              = tx_events s.rfm_framebuf 0 (radio_passes k steps s)
          ∧ rfm_writes (exec k steps s).2 = s.rfm_framebuf.take (radio_passes k steps s))
      ∧ (max s.rfm_framesize 1 ≤ radio_passes k steps s →
        (exec k steps s).1.rfm_mode = RfmMode.rfmmode_off
          ∧ (exec k steps s).1.rfm_framepos = 0
          ∧ (exec k steps s).1.rfm_framesize = 0
          ∧ (exec k steps s).1.rfm_framebuf = s.rfm_framebuf
          ∧ radio_events (exec k steps s).2
              = tx_events s.rfm_framebuf 0 s.rfm_framesize
                  ++ [Event.RFM_OFF, Event.RFM_WRITE 0]
          ∧ rfm_writes (exec k steps s).2 = s.rfm_framebuf.take s.rfm_framesize ++ [0])
      ∧ (∀ inp : Inputs, radio_passes k steps s + 1 = max s.rfm_framesize 1 →
        reaches_late_branches k inp (exec k steps s).1 = true →
        Event.RTC_AddOneSecond ∉ (main_iteration k inp (exec k steps s).1).2 →
        (main_iteration k inp (exec k steps s).1).1.task &&& k.TASK_RFM = 0
          ∧ (main_iteration k inp (exec k steps s).1).1.rfm_mode = RfmMode.rfmmode_off
          ∧ (main_iteration k inp (exec k steps s).1).1.rfm_framepos = 0
          ∧ (main_iteration k inp (exec k steps s).1).1.rfm_framesize = 0
          ∧ radio_events (main_iteration k inp (exec k steps s).1).2
              = tx_events s.rfm_framebuf (radio_passes k steps s)
                  (s.rfm_framesize - radio_passes k steps s)
                ++ [Event.RFM_OFF, Event.RFM_WRITE 0]) := by
  have h := exec_tx_no_tick hk steps s hmode hrfm (by omega) hsz hno
  rw [hpos, Nat.sub_zero, Nat.zero_add] at h
  refine ⟨?_, ?_, ?_⟩
  · intro hlt
    obtain ⟨a, b, c, d, e, f⟩ := h.1 hlt
    refine ⟨a, b, c, d, e, f, ?_⟩
    rw [← rfm_writes_radio_events, f, rfm_writes_tx_events, map_getD_range' _ _ (by omega)]
  · intro hge
    obtain ⟨a, b, c, d, e⟩ := h.2 hge
    refine ⟨a, b, c, d, e, ?_⟩
    rw [← rfm_writes_radio_events, e, rfm_writes_append, rfm_writes_tx_events,
      map_getD_range' _ _ hcap]
    rfl
  · intro inp hlast hl hno2
    obtain ⟨a, b, c, d, e, _⟩ := h.1 (by omega)
    have hp := main_iteration_tx_no_tick hk inp (exec k steps s).1 a b (by rw [d]; exact hsz)
      hno2
    obtain ⟨m1, t1, p1, s1, ev1⟩ := hp.2.2.2 hl (by rw [c, d]; omega)
    rw [e, c, d] at ev1
    exact ⟨t1, m1, p1, s1, ev1⟩

/-! ## Evaluations at concrete inputs -/

/-- The condition of line 253 in terms of its operands: any non-zero value of
`config.RFM_config` passes the first test, and the second test passes on the
seconds that are not multiples of four. -/
theorem broadcast_gate_iff (k : Consts) (inp : Inputs) :
    broadcast_gate k inp = true ↔
      inp.RFM_config ≠ 0 ∧ k.RFM_CONFIG_BROADCASTSTATUS ≠ 0 ∧ inp.RTC_GetSecond % 4 ≠ 0 := by
  simp [broadcast_gate, and_assoc]

set_option maxRecDepth 8192

/-- C1 (code at the failing inputs): with the broadcast-status bit configured, the
tick at second 4 assembles nothing and leaves the radio state as it was, while the
tick at second 1 assembles a frame and switches to transmitting; so does the tick
at second 1 when only another bit of `config.RFM_config` is set. -/
theorem C1_gate_at_failing_inputs :
    second_four.RFM_config &&& hr20.RFM_CONFIG_BROADCASTSTATUS ≠ 0
      ∧ second_four.RTC_GetSecond % 4 = 0
      ∧ Event.RTC_AddOneSecond ∈ (main_iteration hr20 second_four tick_pending).2
      ∧ Event.RFM_TX_ON ∉ (main_iteration hr20 second_four tick_pending).2
      ∧ (main_iteration hr20 second_four tick_pending).1.radio = tick_pending.radio
      ∧ (main_iteration hr20 second_four tick_pending).1.task &&& hr20.TASK_RFM = 0
      ∧ second_one.RTC_GetSecond % 4 ≠ 0
      ∧ (main_iteration hr20 second_one tick_pending).1.rfm_mode = RfmMode.rfmmode_txd
      ∧ (main_iteration hr20 second_one tick_pending).1.rfm_framesize = 14
      ∧ (main_iteration hr20 second_one tick_pending).1.task &&& hr20.TASK_RFM ≠ 0
      ∧ second_one_other_bit.RFM_config &&& hr20.RFM_CONFIG_BROADCASTSTATUS = 0
      ∧ (main_iteration hr20 second_one_other_bit tick_pending).1.rfm_mode
          = RfmMode.rfmmode_txd := by
  decide

/-- C4 (counterexample): for the two-byte frame `17, 34` the values passed to
`RFM_WRITE` during the transmission are `17, 34, 0`, not the two frame bytes
alone, and the completing pass passes two values to `RFM_WRITE`. -/
theorem C4_counterexample :
    TxReady hr20 two_byte_tx
      ∧ two_byte_tx.rfm_framebuf.take two_byte_tx.rfm_framesize = [17, 34]
      ∧ rfm_writes (exec hr20 (cycles [quiet_inputs, quiet_inputs]) two_byte_tx).2 = [17, 34, 0]
      ∧ rfm_writes (exec hr20 (cycles [quiet_inputs, quiet_inputs]) two_byte_tx).2
          ≠ two_byte_tx.rfm_framebuf.take two_byte_tx.rfm_framesize
      ∧ rfm_writes (main_iteration hr20 quiet_inputs
          (exec hr20 (cycles [quiet_inputs]) two_byte_tx).1).2 = [34, 0] := by
  decide

/-- C7 (counterexample): in the middle of a transmission (cursor 1 of 14) a clock
tick that passes the broadcast condition overwrites the frame buffer and puts the
cursor back to 0 while the mode stays transmitting. -/
theorem C7_counterexample :
    mid_transmission.rfm_mode = RfmMode.rfmmode_txd
      ∧ mid_transmission.rfm_framepos = 1
      ∧ mid_transmission.rfm_framesize = 14
      ∧ (main_iteration hr20 second_two_warmer mid_transmission).1.rfm_framebuf
          ≠ mid_transmission.rfm_framebuf
      ∧ (main_iteration hr20 second_two_warmer mid_transmission).1.rfm_framepos
          < mid_transmission.rfm_framepos
      ∧ (main_iteration hr20 second_two_warmer mid_transmission).1.rfm_mode
          = RfmMode.rfmmode_txd := by
  decide

/-- C10 (counterexample): with `TASK_RFM` and the clock tick pending while the radio
is off, one pass changes the mode to transmitting and the length to 14 and issues
`RFM_TX_ON`. -/
theorem C10_counterexample :
    rfm_and_tick_pending.task &&& hr20.TASK_RFM ≠ 0
      ∧ rfm_and_tick_pending.rfm_mode = RfmMode.rfmmode_off
      ∧ rfm_and_tick_pending.rfm_framesize = 0
      ∧ (main_iteration hr20 second_one rfm_and_tick_pending).1.rfm_mode = RfmMode.rfmmode_txd
      ∧ (main_iteration hr20 second_one rfm_and_tick_pending).1.rfm_framesize = 14
      ∧ Event.RFM_TX_ON ∈ (main_iteration hr20 second_one rfm_and_tick_pending).2 := by
  decide

/-- Witness of C2: the tick at second 1 with temperature 215, set-point 21, valve
42, automatic mode and no fault; bytes 7 to 11 are `00 D7 15 2A 00` and byte 12 is
the CRC-8 of bytes 4 to 11. -/
theorem C2_broadcast_frame_witness :
    (14 ≤ tick_pending.rfm_framebuf.length
        ∧ Event.RFM_TX_ON ∈ (main_iteration hr20 second_one tick_pending).2)
      ∧ ((main_iteration hr20 second_one tick_pending).1.rfm_framebuf.take 14 =
            broadcast_frame
              (hr20.RFMPROTO_FLAGS_PACKETTYPE_BROADCAST
                ||| hr20.RFMPROTO_FLAGS_DEVICETYPE_OPENHR20)
              second_one.RFM_devaddr second_one.temp_average second_one.CTL_temp_wanted
              second_one.MOTOR_GetPosPercent
              (status_byte hr20 second_one.CTL_error second_one.CTL_mode_auto
                second_one.mode_window)
          ∧ (main_iteration hr20 second_one tick_pending).1.rfm_framesize = 14
          ∧ (main_iteration hr20 second_one tick_pending).1.rfm_framepos = 0)
      ∧ ((main_iteration hr20 second_one tick_pending).1.rfm_framebuf.drop 7).take 5
          = [0x00, 0xD7, 0x15, 0x2A, 0x00]
      ∧ (main_iteration hr20 second_one tick_pending).1.rfm_framebuf.getD 12 0
          = crc8_dallas
              (((main_iteration hr20 second_one tick_pending).1.rfm_framebuf.drop 4).take 8) :=
  ⟨by decide,
    C2_broadcast_frame hr20 second_one tick_pending (by decide) (by decide) (by decide)
      (by decide) (by decide) (by decide) (by decide) (by decide) (by decide) (by decide),
    by decide, by decide⟩

/-- Witness of C3: motor pulse, keyboard, radio and clock tick pending together;
only the motor-pulse branch runs. -/
theorem C3_dispatch_one_flag_witness :
    (hr20.WF ∧ pulse_and_others_pending.task < 256
        ∧ pulse_and_others_pending.task &&& hr20.TASK_MOTOR_PULSE ≠ 0)
      ∧ HandledOnly hr20 quiet_inputs pulse_and_others_pending hr20.TASK_MOTOR_PULSE
          [Event.MOTOR_updateCalibration quiet_inputs.mont_contact_pooling,
           Event.MOTOR_timer_pulse] :=
  ⟨by decide,
    (C3_dispatch_one_flag hr20 (by decide) quiet_inputs pulse_and_others_pending
      (by decide)).2.2.2.2 (by decide) (by decide) (by decide) (by decide) (by decide)⟩

/-- Witness of C4: the two-byte frame `17, 34`, sent over a run in which an LCD
flag is raised and handled between the two bytes. -/
theorem C4_transmit_frame_witness :
    (hr20.WF ∧ two_byte_tx.rfm_mode = RfmMode.rfmmode_txd
        ∧ two_byte_tx.task &&& hr20.TASK_RFM ≠ 0 ∧ two_byte_tx.rfm_framepos = 0
        ∧ two_byte_tx.rfm_framesize ≤ 255
        ∧ two_byte_tx.rfm_framesize ≤ two_byte_tx.rfm_framebuf.length
        ∧ Event.RTC_AddOneSecond ∉ (exec hr20 send_two_with_lcd two_byte_tx).2
        ∧ max two_byte_tx.rfm_framesize 1 ≤ radio_passes hr20 send_two_with_lcd two_byte_tx)
      ∧ radio_events (exec hr20 send_two_with_lcd two_byte_tx).2
          = tx_events two_byte_tx.rfm_framebuf 0 two_byte_tx.rfm_framesize
              ++ [Event.RFM_OFF, Event.RFM_WRITE 0]
      ∧ rfm_writes (exec hr20 send_two_with_lcd two_byte_tx).2
          = two_byte_tx.rfm_framebuf.take two_byte_tx.rfm_framesize ++ [0] :=
  ⟨by decide,
    ((C4_transmit_frame hr20 (by decide) two_byte_tx send_two_with_lcd (by decide)
      (by decide) (by decide) (by decide) (by decide) (by decide)).2.1 (by decide)).2.2.2.2.1,
    ((C4_transmit_frame hr20 (by decide) two_byte_tx send_two_with_lcd (by decide)
      (by decide) (by decide) (by decide) (by decide) (by decide)).2.1 (by decide)).2.2.2.2.2⟩

/-- Witness of C6: the tick on day 6 at 10:00 with contact count 5 calls
`MOTOR_updateCalibration` with 0 and then with 5. -/
theorem C6_weekly_recalibration_witness :
    Event.RTC_AddOneSecond ∈ (main_iteration hr20 weekly_instant tick_pending).2
      ∧ calibration_calls (main_iteration hr20 weekly_instant tick_pending).2 = [0, 5] :=
  ⟨by decide, C6_weekly_recalibration hr20 weekly_instant tick_pending (by decide)⟩

/-- Witness of C7: a pass without a clock tick in the middle of a transmission. -/
theorem C7_frame_stable_without_reassembly_witness :
    (idle_state.rfm_framepos = 0 ∧ idle_state.rfm_framesize = 0
        ∧ mid_transmission.rfm_mode = RfmMode.rfmmode_txd
        ∧ mid_transmission.rfm_framepos < mid_transmission.rfm_framesize
        ∧ Event.RFM_TX_ON ∉ (main_iteration hr20 second_four mid_transmission).2)
      ∧ (main_iteration hr20 second_four mid_transmission).1.rfm_framebuf
          = mid_transmission.rfm_framebuf :=
  ⟨by decide,
    (C7_frame_stable_without_reassembly hr20 start_and_send_one idle_state second_four
      (by decide) (by decide) (by decide) (by decide) (by decide)).1⟩

/-- Witness of C8: the state in the middle of a transmission. -/
theorem C8_frame_bounds_witness :
    (idle_state.rfm_framepos = 0 ∧ idle_state.rfm_framesize = 0)
      ∧ mid_transmission.rfm_framesize ≤ 14
      ∧ mid_transmission.rfm_framepos ≤ mid_transmission.rfm_framesize :=
  ⟨by decide,
    (C8_frame_bounds hr20 start_and_send_one idle_state (by decide) (by decide)).1,
    (C8_frame_bounds hr20 start_and_send_one idle_state (by decide) (by decide)).2.1⟩

/-- Witness of C10: the radio flag pending while the radio is off, over a run of a
pass, a raised keyboard flag and another pass. -/
theorem C10_idle_radio_flag_persists_witness :
    (hr20.WF ∧ rfm_pending_idle.task &&& hr20.TASK_RFM ≠ 0
        ∧ rfm_pending_idle.rfm_mode ≠ RfmMode.rfmmode_txd
        ∧ Event.RFM_TX_ON ∉ (exec hr20
            [Step.cycle quiet_inputs, Step.env hr20.TASK_KB false 10, Step.cycle second_one]
            rfm_pending_idle).2)
      ∧ (exec hr20
            [Step.cycle quiet_inputs, Step.env hr20.TASK_KB false 10, Step.cycle second_one]
            rfm_pending_idle).1.task &&& hr20.TASK_RFM ≠ 0 :=
  ⟨by decide,
    ((C10_idle_radio_flag_persists hr20 (by decide) rfm_pending_idle (by decide)
      (by decide)).2 _ (by decide)).1⟩


end OpenHR20
